import Mathlib

/-!
Verification of the inbound-shipments and reports modules of a parameter-marshalling
client for the MWS web API.  The Python source under `mws/apis/inbound_shipments.py`
and `mws/apis/reports.py` is shallowly embedded: Python dicts become association
lists with Python `dict.update` semantics, loosely-typed arguments become the
`PVal` value universe, and raised exceptions become `Except` errors.  Helpers owned
by the shared base client (`mws.utils`, `mws.decorators`, request transmission) are
not part of the embedded source; they are modelled from the specification and say
so in their doc comments.
-/

namespace MWSSpec

/-- Python runtime values as they occur at the modelled call sites:
`None`, strings, integers, booleans and (string-keyed) dictionaries. -/
inductive PVal where
  | none
  | str (s : String)
  | int (n : Int)
  | bool (b : Bool)
  | dict (entries : List (String × PVal))

/-- A Python dictionary with string keys. -/
abbrev Dict := List (String × PVal)

mutual

/-- Python `str()` on a `PVal`.  Scalar cases mirror CPython output; the
dictionary case renders entries recursively (no modelled call site ever
coerces a container to a string, the code only calls `str` on quantities). -/
def pyStr : PVal → String
  | PVal.none => "None"
  | PVal.str s => s
  | PVal.int n => toString n
  | PVal.bool b => if b then "True" else "False"
  | PVal.dict es => "\x7b" ++ pyStrEntries es ++ "\x7d"

def pyStrEntries : List (String × PVal) → String
  | [] => ""
  | (k, v) :: rest =>
    k ++ ": " ++ pyStr v ++ (if rest.isEmpty then "" else ", ") ++ pyStrEntries rest

end

/-- Python truthiness (`bool(v)`) for the modelled values. -/
def pvTruthy : PVal → Bool
  | PVal.none => false
  | PVal.str s => !s.isEmpty
  | PVal.int n => n != 0
  | PVal.bool b => b
  | PVal.dict es => !es.isEmpty

/-- `isinstance(v, str)`. -/
def isStr : PVal → Bool
  | PVal.str _ => true
  | _ => false

def PVal.isNone : PVal → Bool
  | PVal.none => true
  | _ => false

/-- View a `PVal` known to be a dict as a `Dict` (defaults to empty otherwise). -/
def asDict : PVal → Dict
  | PVal.dict d => d
  | _ => []

/-- First-match association lookup; dicts built through `dset` keep keys unique,
so this is Python dict indexing. -/
def dlookup (d : Dict) (k : String) : Option PVal :=
  match d with
  | [] => Option.none
  | (k1, v) :: rest => if k1 == k then some v else dlookup rest k

/-- Python `k in d`. -/
def hasKey (d : Dict) (k : String) : Bool := (dlookup d k).isSome

/-- Python `d.get(k)` (default `None`). -/
def dget (d : Dict) (k : String) : PVal := (dlookup d k).getD PVal.none

/-- Python `d.get(k, dflt)`. -/
def dgetD (d : Dict) (k : String) (dflt : PVal) : PVal := (dlookup d k).getD dflt

/-- Python `d[k] = v`: replace in place when the key exists, else append. -/
def dset (d : Dict) (k : String) (v : PVal) : Dict :=
  if d.any (fun p => p.1 == k) then d.map (fun p => if p.1 == k then (k, v) else p)
  else d ++ [(k, v)]

/-- Python `d.update(e)`. -/
def dupdate (d e : Dict) : Dict := e.foldl (fun acc p => dset acc p.1 p.2) d

/-- Exceptions raised by the modelled code: `MWSError` (the module's
caller/validation error) and Python's built-in `AssertionError` raised by
`assert` statements. -/
inductive PyErr where
  | mwsError (msg : String)
  | assertionError (msg : String)
deriving DecidableEq

/-- Whether an exception is an `AssertionError` (as opposed to `MWSError`). -/
def PyErr.isAssertion : PyErr → Bool
  | PyErr.assertionError _ => true
  | PyErr.mwsError _ => false

/-- One `(input_key, output_key, is_required, default_value)` tuple of the
`key_config` tables used by the item parser and the address setter. -/
structure KeyCfg where
  inputKey : String
  outputKey : String
  required : Bool
  dflt : PVal

def requiredKeys (cfg : List KeyCfg) : List String :=
  (cfg.filter (fun c => c.required)).map (fun c => c.inputKey)

def optionalKeys (cfg : List KeyCfg) : List String :=
  (cfg.filter (fun c => !c.required)).map (fun c => c.inputKey)

/-- The `"`...`` dict missing required keys: ...\n- Optional keys: ...."` message
built by both the item parser and the address setter. -/
def missingKeysMsg (noun : String) (cfg : List KeyCfg) : String :=
  "`" ++ noun ++ "` dict missing required keys: " ++
    String.intercalate ", " (requiredKeys cfg) ++
    ".\n- Optional keys: " ++ String.intercalate ", " (optionalKeys cfg) ++ "."

/-- `key_config` for the `CreateInboundShipmentPlan` operation. -/
def planItemKeyConfig : List KeyCfg :=
  [⟨"sku", "SellerSKU", true, PVal.none⟩,
   ⟨"quantity", "Quantity", true, PVal.none⟩,
   ⟨"quantity_in_case", "QuantityInCase", false, PVal.none⟩,
   ⟨"asin", "ASIN", false, PVal.none⟩,
   ⟨"condition", "Condition", false, PVal.none⟩]

/-- `key_config` for the other (create/update shipment) operations. -/
def otherItemKeyConfig : List KeyCfg :=
  [⟨"sku", "SellerSKU", true, PVal.none⟩,
   ⟨"quantity", "QuantityShipped", true, PVal.none⟩,
   ⟨"quantity_in_case", "QuantityInCase", false, PVal.none⟩]

def itemKeyConfig (operation : String) : List KeyCfg :=
  if operation == "CreateInboundShipmentPlan" then planItemKeyConfig
  else otherItemKeyConfig

def quantityKey (operation : String) : String :=
  if operation == "CreateInboundShipmentPlan" then "Quantity" else "QuantityShipped"

/-- `str(v)` if the value is present, `None` otherwise (the quantity coercion). -/
def strOrNone (v : PVal) : PVal :=
  match v with
  | PVal.none => PVal.none
  | v => PVal.str (pyStr v)

/-- The `item_dict` built for one input item on the success path of
`parse_item_args`: the literal with `SellerSKU`, the operation's quantity key
and `QuantityInCase`, then updated with the remaining config entries. -/
def itemOutput (operation : String) (item : Dict) : Dict :=
  let cfg := itemKeyConfig operation
  let base : Dict :=
    [("SellerSKU", dget item "sku"),
     (quantityKey operation, strOrNone (dget item "quantity")),
     ("QuantityInCase", strOrNone (dget item "quantity_in_case"))]
  dupdate base
    ((cfg.filter (fun c => !(["sku", "quantity", "quantity_in_case"].contains c.inputKey))).map
      (fun c => (c.outputKey, dgetD item c.inputKey c.dflt)))

/-- One iteration of the `parse_item_args` loop: the `isinstance` check, the
required-keys check, then construction of the output `item_dict`. -/
def parseOneItem (operation : String) (item : PVal) : Except PyErr Dict :=
  match item with
  | PVal.dict d =>
    if !((requiredKeys (itemKeyConfig operation)).all (fun k => hasKey d k)) then
      Except.error (PyErr.mwsError (missingKeysMsg "item" (itemKeyConfig operation)))
    else
      Except.ok (itemOutput operation d)
  | _ => Except.error (PyErr.mwsError "`item` argument must be a dict.")

/-- The `for item in item_args` loop: stops at the first raised error. -/
def parseItems (operation : String) : List PVal → Except PyErr (List Dict)
  | [] => Except.ok []
  | item :: rest =>
    match parseOneItem operation item with
    | Except.error e => Except.error e
    | Except.ok d =>
      match parseItems operation rest with
      | Except.error e => Except.error e
      | Except.ok ds => Except.ok (d :: ds)

/-- `parse_item_args(item_args, operation)`. -/
def parse_item_args (item_args : List PVal) (operation : String) :
    Except PyErr (List Dict) :=
  if item_args.isEmpty then
    Except.error (PyErr.mwsError "One or more `item` dict arguments required.")
  else parseItems operation item_args

/-! ### Ship-from address setter and client construction -/

/-- `key_config` of `set_ship_from_address`. -/
def addressKeyConfig : List KeyCfg :=
  [⟨"name", "Name", true, PVal.none⟩,
   ⟨"address_1", "AddressLine1", true, PVal.none⟩,
   ⟨"address_2", "AddressLine2", false, PVal.none⟩,
   ⟨"city", "City", true, PVal.none⟩,
   ⟨"district_or_county", "DistrictOrCounty", false, PVal.none⟩,
   ⟨"state_or_province", "StateOrProvinceCode", false, PVal.none⟩,
   ⟨"postal_code", "PostalCode", false, PVal.none⟩,
   ⟨"country", "CountryCode", false, PVal.str "US"⟩]

/-- The parsed address stored on success: one `ShipFromAddress.<RemoteField>`
entry per config row, with the row default when the input key is absent. -/
def parsedAddress (a : Dict) : Dict :=
  addressKeyConfig.map
    (fun c => ("ShipFromAddress." ++ c.outputKey, dgetD a c.inputKey c.dflt))

/-- Result of a `set_ship_from_address` call: the `self.from_address` state
after the call (`Option.none` models Python `None`) and the raised error, if
any (the method returns `None` on success, which `Unit` stands for). -/
structure SetAddrOutcome where
  newFromAddress : Option Dict
  result : Except PyErr Unit

/-- `InboundShipments.set_ship_from_address(address)`.  The first statement of
the method clears `self.from_address` to `None`; validation happens after, so
every error branch leaves the cleared state. -/
def set_ship_from_address (fromAddress : Option Dict) (address : PVal) :
    SetAddrOutcome :=
  let _ := fromAddress
  if !pvTruthy address then
    ⟨Option.none, Except.error (PyErr.mwsError "Missing required `address` dict.")⟩
  else
    match address with
    | PVal.dict a =>
      if !((requiredKeys addressKeyConfig).all (fun k => hasKey a k)) then
        ⟨Option.none,
         Except.error (PyErr.mwsError (missingKeysMsg "address" addressKeyConfig))⟩
      else ⟨some (parsedAddress a), Except.ok ()⟩
    | _ => ⟨Option.none, Except.error (PyErr.mwsError "`address` must be a dict")⟩

/-- `InboundShipments.__init__`: `self.from_address = {}`, then, when a
`from_address` kwarg is supplied, `self.from_address =
self.set_ship_from_address(addr)` — the assignment stores the method's return
value (`None`), not the state the method wrote.  Returns the resulting
`self.from_address` state. -/
def init_from_address (from_address_kwarg : Option PVal) :
    Except PyErr (Option Dict) :=
  match from_address_kwarg with
  | Option.none => Except.ok (some [])
  | some addr =>
    let outcome := set_ship_from_address (some []) addr
    match outcome.result with
    | Except.error e => Except.error e
    | Except.ok _ => Except.ok Option.none

/-! ### Helpers owned by collaborators outside `src/` (modelled from the spec) -/

/-- Modelled from the spec: `mws.utils.enumerate_param(prefix, values)` (not
included under `src/`) turns a list into `prefix.1, prefix.2, ...` keyed
entries; call sites pass the prefix with its trailing dot included. -/
def enumerate_param (param : String) (values : List String) : Dict :=
  values.enum.foldl
    (fun acc iv => dset acc (param ++ toString (iv.1 + 1)) (PVal.str iv.2)) []

/-- Modelled from the spec: `mws.utils.enumerate_params` (not included under
`src/`) applies `enumerate_param` to each `(prefix, values)` entry, skipping
absent value lists. -/
def enumerate_params (pairs : List (String × Option (List String))) : Dict :=
  pairs.foldl
    (fun acc p =>
      match p.2 with
      | some vs => dupdate acc (enumerate_param p.1 vs)
      | Option.none => acc) []

/-- The `prefix.<n>.<Field>` key of one enumerated member field. -/
def memberKey (pfx : String) (idx : Nat) (field : String) : String :=
  pfx ++ "." ++ toString idx ++ "." ++ field

/-- Modelled from the spec: `mws.utils.enumerate_keyed_param(prefix,
list_of_dicts)` (not included under `src/`) turns a list of dicts into
`prefix.<n>.<Field>` entries, indices starting at 1 in list order. -/
def enumerate_keyed_param (param : String) (values : List Dict) : Dict :=
  values.enum.foldl
    (fun acc iv =>
      dupdate acc (iv.2.map (fun kv => (memberKey param (iv.1 + 1) kv.1, kv.2)))) []

/-- Modelled from the spec: `mws.utils.dt_iso_or_none` (not included under
`src/`) gives the ISO-8601 string of a datetime value or `None`; datetime
arguments are modelled as their ISO strings. -/
def dt_iso_or_none (v : Option String) : PVal :=
  match v with
  | some s => PVal.str s
  | Option.none => PVal.none

/-- Modelled from the spec: the `next_token_action(action)` decorator from
`mws.decorators` (not included under `src/`).  When the call carries a truthy
`next_token`, the wrapper bypasses the method body and issues a request whose
only parameters are `Action=<action>ByNextToken` and `NextToken=<token>`;
otherwise the method body runs unchanged. -/
def next_token_action (action : String) (next_token : Option String)
    (normal : Dict) : Dict :=
  match next_token with
  | some tok =>
    if tok == "" then normal
    else [("Action", PVal.str (action ++ "ByNextToken")), ("NextToken", PVal.str tok)]
  | Option.none => normal

/-- Modelled from the spec: the shared base client transmits only parameters
that have a value — an entry whose value is `None` is omitted from the sent
request ("absent key == field not sent"; the base client is not included under
`src/`). -/
def sentParams (d : Dict) : Dict := d.filter (fun kv => !kv.2.isNone)

/-! ### Shipment plan / create / update builders

Each builder takes the `self.from_address` state first and returns the
parameter dict handed to `make_request`, or the raised error. -/

def SHIPMENT_STATUSES : List String := ["WORKING", "SHIPPED", "CANCELLED"]

def DEFAULT_SHIP_STATUS : String := "WORKING"

def LABEL_PREFERENCES : List String :=
  ["SELLER_LABEL", "AMAZON_LABEL_ONLY", "AMAZON_LABEL_PREFERRED"]

def InboundShipments_NEXT_TOKEN_OPERATIONS : List String :=
  ["ListInboundShipments", "ListInboundShipmentItems"]

/-- Truthiness of the `self.from_address` state (`None` and `{}` are falsy). -/
def fromAddressSet : Option Dict → Bool
  | Option.none => false
  | some d => !d.isEmpty

def addrNotSetMsg : String :=
  "ShipFromAddress has not been set. Please use `.set_ship_from_address()` first."

/-- The stored address re-keyed under `InboundShipmentHeader.` for the
create/update operations. -/
def headerFromAddress (fa : Dict) : Dict :=
  fa.map (fun kv => ("InboundShipmentHeader." ++ kv.1, kv.2))

/-- `InboundShipments.create_inbound_shipment_plan`. -/
def create_inbound_shipment_plan (fromAddress : Option Dict) (items : List PVal)
    (country_code subdivision_code label_preference : String) :
    Except PyErr Dict :=
  if items.isEmpty then
    Except.error (PyErr.mwsError "One or more `item` dict arguments required.")
  else
    let subdivision_code : PVal :=
      if subdivision_code == "" then PVal.none else PVal.str subdivision_code
    let label_preference : PVal :=
      if label_preference == "" then PVal.none else PVal.str label_preference
    match parse_item_args items "CreateInboundShipmentPlan" with
    | Except.error e => Except.error e
    | Except.ok parsedItems =>
      if !fromAddressSet fromAddress then
        Except.error (PyErr.mwsError addrNotSetMsg)
      else
        let data : Dict :=
          [("Action", PVal.str "CreateInboundShipmentPlan"),
           ("ShipToCountryCode", PVal.str country_code),
           ("ShipToCountrySubdivisionCode", subdivision_code),
           ("LabelPrepPreference", label_preference)]
        let data := dupdate data (fromAddress.getD [])
        let data := dupdate data
          (enumerate_keyed_param "InboundShipmentPlanRequestItems.member" parsedItems)
        Except.ok data

/-- `InboundShipments.create_inbound_shipment`. -/
def create_inbound_shipment (fromAddress : Option Dict)
    (shipment_id shipment_name destination : PVal) (items : List PVal)
    (shipment_status label_preference : String) (case_required : Bool)
    (box_contents_source : PVal) : Except PyErr Dict :=
  if !isStr shipment_id then
    Except.error (PyErr.assertionError "`shipment_id` must be a string.")
  else if !isStr shipment_name then
    Except.error (PyErr.assertionError "`shipment_name` must be a string.")
  else if !isStr destination then
    Except.error (PyErr.assertionError "`destination` must be a string.")
  else if items.isEmpty then
    Except.error (PyErr.mwsError "One or more `item` dict arguments required.")
  else
    match parse_item_args items "CreateInboundShipment" with
    | Except.error e => Except.error e
    | Except.ok parsedItems =>
      if !fromAddressSet fromAddress then
        Except.error (PyErr.mwsError addrNotSetMsg)
      else
        let from_address := headerFromAddress (fromAddress.getD [])
        let shipment_status :=
          if SHIPMENT_STATUSES.contains shipment_status then shipment_status
          else DEFAULT_SHIP_STATUS
        let label_preference : PVal :=
          if LABEL_PREFERENCES.contains label_preference then
            PVal.str label_preference
          else PVal.none
        let case_required := if case_required then "true" else "false"
        let data : Dict :=
          [("Action", PVal.str "CreateInboundShipment"),
           ("ShipmentId", shipment_id),
           ("InboundShipmentHeader.ShipmentName", shipment_name),
           ("InboundShipmentHeader.DestinationFulfillmentCenterId", destination),
           ("InboundShipmentHeader.LabelPrepPreference", label_preference),
           ("InboundShipmentHeader.AreCasesRequired", PVal.str case_required),
           ("InboundShipmentHeader.ShipmentStatus", PVal.str shipment_status),
           ("InboundShipmentHeader.IntendedBoxContentsSource", box_contents_source)]
        let data := dupdate data from_address
        let data := dupdate data
          (enumerate_keyed_param "InboundShipmentItems.member" parsedItems)
        Except.ok data

/-- `InboundShipments.update_inbound_shipment`.  `items` is optional; the
falsy cases (`None` or `[]`) are both modelled by the empty list, as the
method only tests truthiness. -/
def update_inbound_shipment (fromAddress : Option Dict)
    (shipment_id shipment_name destination : PVal) (items : List PVal)
    (shipment_status label_preference : String) (case_required : Bool)
    (box_contents_source : PVal) : Except PyErr Dict :=
  if !isStr shipment_id then
    Except.error (PyErr.assertionError "`shipment_id` must be a string.")
  else if !isStr shipment_name then
    Except.error (PyErr.assertionError "`shipment_name` must be a string.")
  else if !isStr destination then
    Except.error (PyErr.assertionError "`destination` must be a string.")
  else
    let parsedRes : Except PyErr (Option (List Dict)) :=
      if items.isEmpty then Except.ok Option.none
      else
        match parse_item_args items "UpdateInboundShipment" with
        | Except.error e => Except.error e
        | Except.ok ds => Except.ok (some ds)
    match parsedRes with
    | Except.error e => Except.error e
    | Except.ok parsedItems =>
      if !fromAddressSet fromAddress then
        Except.error (PyErr.mwsError addrNotSetMsg)
      else
        let from_address := headerFromAddress (fromAddress.getD [])
        let shipment_status : PVal :=
          if SHIPMENT_STATUSES.contains shipment_status then
            PVal.str shipment_status
          else PVal.none
        let label_preference : PVal :=
          if LABEL_PREFERENCES.contains label_preference then
            PVal.str label_preference
          else PVal.none
        let case_required := if case_required then "true" else "false"
        let data : Dict :=
          [("Action", PVal.str "UpdateInboundShipment"),
           ("ShipmentId", shipment_id),
           ("InboundShipmentHeader.ShipmentName", shipment_name),
           ("InboundShipmentHeader.DestinationFulfillmentCenterId", destination),
           ("InboundShipmentHeader.LabelPrepPreference", label_preference),
           ("InboundShipmentHeader.AreCasesRequired", PVal.str case_required),
           ("InboundShipmentHeader.ShipmentStatus", shipment_status),
           ("InboundShipmentHeader.IntendedBoxContentsSource", box_contents_source)]
        let data := dupdate data from_address
        let data :=
          match parsedItems with
          | some pis =>
            if pis.isEmpty then data
            else dupdate data (enumerate_keyed_param "InboundShipmentItems.member" pis)
          | Option.none => data
        Except.ok data

/-- `InboundShipments.list_inbound_shipments` (decorated with
`next_token_action("ListInboundShipments")`). -/
def list_inbound_shipments (shipment_ids shipment_statuses : Option (List String))
    (last_updated_after last_updated_before : Option String)
    (next_token : Option String) : Dict :=
  next_token_action "ListInboundShipments" next_token
    (let data : Dict :=
      [("Action", PVal.str "ListInboundShipments"),
       ("LastUpdatedAfter", dt_iso_or_none last_updated_after),
       ("LastUpdatedBefore", dt_iso_or_none last_updated_before)]
     dupdate data
      (enumerate_params
        [("ShipmentStatusList.member.", shipment_statuses),
         ("ShipmentIdList.member.", shipment_ids)]))

/-- `InboundShipments.list_inbound_shipment_items` (decorated with
`next_token_action("ListInboundShipmentItems")`). -/
def list_inbound_shipment_items (shipment_id : PVal)
    (last_updated_after last_updated_before : Option String)
    (next_token : Option String) : Dict :=
  next_token_action "ListInboundShipmentItems" next_token
    [("Action", PVal.str "ListInboundShipmentItems"),
     ("ShipmentId", shipment_id),
     ("LastUpdatedAfter", dt_iso_or_none last_updated_after),
     ("LastUpdatedBefore", dt_iso_or_none last_updated_before)]

/-! ### Reports API -/

def Reports_NEXT_TOKEN_OPERATIONS : List String :=
  ["GetReportRequestList", "GetReportScheduleList"]

/-- Transcribes which `Reports` methods carry the `@next_token_action`
decorator in the source, by the action name each decorator is given:
`get_report_list` is wrapped with `GetReportList` and
`get_report_request_list` with `GetReportRequestList`; no other `Reports`
method (in particular not `get_report_schedule_list`) is wrapped. -/
def Reports_wrapped_token_actions : List String :=
  ["GetReportList", "GetReportRequestList"]

/-- `Reports.get_report_list` (decorated with
`next_token_action("GetReportList")`). -/
def get_report_list (requestids : List String) (max_count : PVal)
    (types : List String) (acknowledged fromdate todate : PVal)
    (next_token : Option String) : Dict :=
  next_token_action "GetReportList" next_token
    (let data : Dict :=
      [("Action", PVal.str "GetReportList"),
       ("Acknowledged", acknowledged),
       ("AvailableFromDate", fromdate),
       ("AvailableToDate", todate),
       ("MaxCount", max_count)]
     let data := dupdate data (enumerate_param "ReportRequestIdList.Id." requestids)
     dupdate data (enumerate_param "ReportTypeList.Type." types))

/-- `Reports.get_report_request_list` (decorated with
`next_token_action("GetReportRequestList")`). -/
def get_report_request_list (requestids types processingstatuses : List String)
    (max_count fromdate todate : PVal) (next_token : Option String) : Dict :=
  next_token_action "GetReportRequestList" next_token
    (let data : Dict :=
      [("Action", PVal.str "GetReportRequestList"),
       ("MaxCount", max_count),
       ("RequestedFromDate", fromdate),
       ("RequestedToDate", todate)]
     let data := dupdate data (enumerate_param "ReportRequestIdList.Id." requestids)
     let data := dupdate data (enumerate_param "ReportTypeList.Type." types)
     dupdate data
      (enumerate_param "ReportProcessingStatusList.Status." processingstatuses))

/-- `Reports.get_report_schedule_list` — declared in
`NEXT_TOKEN_OPERATIONS` but NOT decorated with `next_token_action` in the
source; it takes no `next_token` argument and always builds the plain
request. -/
def get_report_schedule_list (types : List String) : Dict :=
  let data : Dict := [("Action", PVal.str "GetReportScheduleList")]
  dupdate data (enumerate_param "ReportTypeList.Type." types)

/-! ### Auxiliary definitions used by the proofs -/

/-- The keys of a dict, in order. -/
def dkeys (d : Dict) : List String := d.map Prod.fst

/-- Key uniqueness, the invariant every Python dict enjoys; dicts built with
`dset`/`dupdate` from literals keep it. -/
def keysNodup (d : Dict) : Prop := (dkeys d).Nodup

/-- An item argument acceptable to every schema: a dict with the required
`sku` and `quantity` keys. -/
def validItem : PVal → Bool
  | PVal.dict d => hasKey d "sku" && hasKey d "quantity"
  | _ => false

/-- The remote field names of a non-plan parsed item, in output order. -/
def fields3 : List String := ["SellerSKU", "QuantityShipped", "QuantityInCase"]

/-- The enumerated entries contributed by the single member dict `d` at
index `n`. -/
def memberBlock (p : String) (n : Nat) (d : Dict) : Dict :=
  d.map (fun kv => (memberKey p n kv.1, kv.2))

/-- Concatenation of the member blocks of `ds`, numbering from `n + 1`. -/
def flattenBlocks (p : String) (n : Nat) : List Dict → Dict
  | [] => []
  | d :: ds => memberBlock p (n + 1) d ++ flattenBlocks p (n + 1) ds

/-- Numeric value of a decimal digit character. -/
def decVal (c : Char) : Nat := c.toNat - 48

/-- Value of a big-endian list of decimal digit characters. -/
def ofDecChars : List Char → Nat
  | [] => 0
  | c :: cs => decVal c * 10 ^ cs.length + ofDecChars cs

/-! ### String facts -/

theorem strData_append (a b : String) : (a ++ b).data = a.data ++ b.data := rfl

theorem strExt {a b : String} (h : a.data = b.data) : a = b := by
  cases a; cases b; exact congrArg String.mk h

theorem strAppend_left_cancel {a b c : String} (h : a ++ b = a ++ c) : b = c := by
  have hd : a.data ++ b.data = a.data ++ c.data := congrArg String.data h
  exact strExt (List.append_cancel_left hd)

theorem strAppend_right_cancel {a b c : String} (h : a ++ c = b ++ c) : a = b := by
  have hd : a.data ++ c.data = b.data ++ c.data := congrArg String.data h
  exact strExt (List.append_cancel_right hd)

theorem strData_getElem_append (a b : String) (i : Nat) (c : Char)
    (h : a.data[i]? = some c) : (a ++ b).data[i]? = some c := by
  have hi : i < a.data.length := by
    by_contra hn
    rw [List.getElem?_eq_none (by omega)] at h
    exact Option.noConfusion h
  calc (a ++ b).data[i]? = a.data[i]? := List.getElem?_append_left hi
    _ = some c := h

theorem str_ne_of_data_getElem {a b : String} (i : Nat)
    (h : a.data[i]? ≠ b.data[i]?) : a ≠ b := by
  intro e; exact h (by rw [e])

/-! ### Injectivity of the decimal rendering of a `Nat` -/

theorem decVal_digitChar (m : Nat) (h : m < 10) : decVal (Nat.digitChar m) = m := by
  interval_cases m <;> rfl

theorem ofDecChars_append_singleton (l : List Char) (c : Char) :
    ofDecChars (l ++ [c]) = 10 * ofDecChars l + decVal c := by
  induction l with
  | nil => simp [ofDecChars]
  | cons x xs ih =>
    simp only [List.cons_append, ofDecChars, List.append_eq, List.length_append,
      List.length_cons, List.length_nil, ih]
    ring

theorem toDigitsCore_acc (b fuel n : Nat) (acc : List Char) :
    Nat.toDigitsCore b fuel n acc = Nat.toDigitsCore b fuel n [] ++ acc := by
  induction fuel generalizing n acc with
  | zero => simp [Nat.toDigitsCore]
  | succ f ih =>
    simp only [Nat.toDigitsCore]
    by_cases h : n / b = 0
    · simp [h]
    · simp only [h, if_false]
      rw [ih (n / b) (Nat.digitChar (n % b) :: acc),
          ih (n / b) [Nat.digitChar (n % b)], List.append_assoc]
      rfl

theorem ofDecChars_toDigitsCore (fuel n : Nat) (h : n < fuel) :
    ofDecChars (Nat.toDigitsCore 10 fuel n []) = n := by
  induction fuel generalizing n with
  | zero => omega
  | succ f ih =>
    simp only [Nat.toDigitsCore]
    by_cases h0 : n / 10 = 0
    · simp only [h0, if_true, eq_self_iff_true]
      have hm : n % 10 < 10 := Nat.mod_lt _ (by norm_num)
      simp [ofDecChars, decVal_digitChar (n % 10) hm]
      omega
    · simp only [h0, if_false]
      rw [toDigitsCore_acc, ofDecChars_append_singleton, ih (n / 10) (by omega),
          decVal_digitChar (n % 10) (by omega)]
      omega

theorem natToString_inj {m n : Nat} (h : toString m = toString n) : m = n := by
  have hm : ofDecChars (Nat.toDigitsCore 10 (m + 1) m []) = m :=
    ofDecChars_toDigitsCore (m + 1) m (by omega)
  have hn : ofDecChars (Nat.toDigitsCore 10 (n + 1) n []) = n :=
    ofDecChars_toDigitsCore (n + 1) n (by omega)
  have hd : (toString m).data = (toString n).data := congrArg String.data h
  calc m = ofDecChars (toString m).data := hm.symm
    _ = ofDecChars (toString n).data := by rw [hd]
    _ = n := hn

/-! ### Generic dictionary lemmas -/

theorem dlookup_nil (k : String) : dlookup [] k = Option.none := rfl

theorem dlookup_cons (k1 : String) (v1 : PVal) (rest : Dict) (k : String) :
    dlookup ((k1, v1) :: rest) k = if k1 == k then some v1 else dlookup rest k := rfl

theorem mem_dset {kv : String × PVal} {d : Dict} {k : String} {v : PVal}
    (h : kv ∈ dset d k v) : kv ∈ d ∨ kv = (k, v) := by
  unfold dset at h
  by_cases hc : d.any (fun p => p.1 == k)
  · rw [if_pos hc] at h
    obtain ⟨p, hp, hpe⟩ := List.mem_map.mp h
    by_cases hk : p.1 == k
    · rw [if_pos hk] at hpe; exact Or.inr hpe.symm
    · rw [if_neg hk] at hpe; exact Or.inl (hpe ▸ hp)
  · rw [if_neg hc] at h
    rcases List.mem_append.mp h with h1 | h1
    · exact Or.inl h1
    · exact Or.inr (List.mem_singleton.mp h1)

theorem mem_dset_of_mem_ne {kv : String × PVal} {d : Dict} {k : String} {v : PVal}
    (h : kv ∈ d) (hne : kv.1 ≠ k) : kv ∈ dset d k v := by
  unfold dset
  by_cases hc : d.any (fun p => p.1 == k)
  · rw [if_pos hc]
    exact List.mem_map.mpr ⟨kv, h, if_neg (by simpa using hne)⟩
  · rw [if_neg hc]
    exact List.mem_append_left _ h

theorem mem_dset_self (d : Dict) (k : String) (v : PVal) : (k, v) ∈ dset d k v := by
  unfold dset
  by_cases hc : d.any (fun p => p.1 == k)
  · rw [if_pos hc]
    obtain ⟨p, hp, hpk⟩ := List.any_eq_true.mp hc
    exact List.mem_map.mpr ⟨p, hp, if_pos hpk⟩
  · rw [if_neg hc]
    exact List.mem_append_right _ (List.mem_singleton.mpr rfl)

theorem dset_of_fresh {d : Dict} {k : String} (v : PVal)
    (h : ∀ kv ∈ d, kv.1 ≠ k) : dset d k v = d ++ [(k, v)] := by
  unfold dset
  rw [if_neg]
  intro hc
  obtain ⟨p, hp, hpk⟩ := List.any_eq_true.mp hc
  exact h p hp (by simpa using hpk)

theorem keysNodup_dset {d : Dict} {k : String} {v : PVal}
    (h : keysNodup d) : keysNodup (dset d k v) := by
  unfold dset
  by_cases hc : d.any (fun p => p.1 == k)
  · rw [if_pos hc]
    have hkeys : dkeys (d.map (fun p => if p.1 == k then (k, v) else p)) = dkeys d := by
      unfold dkeys
      rw [List.map_map]
      apply List.map_congr_left
      intro p _
      by_cases hp : p.1 == k
      · simp only [Function.comp_apply, if_pos hp]
        exact (eq_of_beq hp).symm
      · simp only [Function.comp_apply, if_neg hp]
    unfold keysNodup
    rw [hkeys]
    exact h
  · rw [if_neg hc]
    unfold keysNodup dkeys
    rw [List.map_append]
    simp only [List.map_cons, List.map_nil]
    apply List.Nodup.append h (List.nodup_singleton k)
    intro x hx hk1
    rw [List.mem_singleton] at hk1
    subst hk1
    obtain ⟨p, hp, hpe⟩ := List.mem_map.mp hx
    exact (List.any_eq_true.not.mp hc) ⟨p, hp, by simpa using hpe⟩

theorem dupdate_nil (d : Dict) : dupdate d [] = d := rfl

theorem dupdate_cons (d : Dict) (x : String × PVal) (e : Dict) :
    dupdate d (x :: e) = dupdate (dset d x.1 x.2) e := rfl

theorem mem_dupdate {kv : String × PVal} {d e : Dict}
    (h : kv ∈ dupdate d e) : kv ∈ d ∨ kv ∈ e := by
  induction e generalizing d with
  | nil => exact Or.inl h
  | cons x e ih =>
    rw [dupdate_cons] at h
    rcases ih h with h1 | h1
    · rcases mem_dset h1 with h2 | h2
      · exact Or.inl h2
      · exact Or.inr (by rw [h2]; exact List.mem_cons_self _ _)
    · exact Or.inr (List.mem_cons_of_mem _ h1)

theorem keysNodup_dupdate {d : Dict} (e : Dict)
    (h : keysNodup d) : keysNodup (dupdate d e) := by
  induction e generalizing d with
  | nil => exact h
  | cons x e ih => exact ih (keysNodup_dset h)

theorem mem_dupdate_of_mem_left {kv : String × PVal} {d e : Dict}
    (h : kv ∈ d) (hfresh : kv.1 ∉ dkeys e) : kv ∈ dupdate d e := by
  induction e generalizing d with
  | nil => exact h
  | cons x e ih =>
    rw [dupdate_cons]
    have hx : kv.1 ≠ x.1 := by
      intro he; exact hfresh (he ▸ List.mem_cons_self _ _)
    have hrest : kv.1 ∉ dkeys e := fun hm => hfresh (List.mem_cons_of_mem _ hm)
    exact ih (mem_dset_of_mem_ne h hx) hrest

theorem mem_dupdate_of_mem_right {kv : String × PVal} {d e : Dict}
    (hnd : keysNodup e) (h : kv ∈ e) : kv ∈ dupdate d e := by
  induction e generalizing d with
  | nil => exact absurd h (List.not_mem_nil kv)
  | cons x e ih =>
    rw [dupdate_cons]
    rcases List.mem_cons.mp h with h1 | h1
    · subst h1
      have hx : kv.1 ∉ dkeys e := by
        have := hnd
        unfold keysNodup dkeys at this
        simp only [List.map_cons, List.nodup_cons] at this
        exact this.1
      exact mem_dupdate_of_mem_left (mem_dset_self d kv.1 kv.2) hx
    · have hnd2 : keysNodup e := by
        have := hnd
        unfold keysNodup dkeys at this
        simp only [List.map_cons, List.nodup_cons] at this
        exact this.2
      exact ih hnd2 h1

theorem dupdate_eq_append_of_fresh {d e : Dict} (hnd : keysNodup e)
    (hfresh : ∀ kv ∈ e, ∀ kw ∈ d, kv.1 ≠ kw.1) : dupdate d e = d ++ e := by
  induction e generalizing d with
  | nil => simp [dupdate_nil]
  | cons x e ih =>
    rw [dupdate_cons]
    have hx : dset d x.1 x.2 = d ++ [x] := by
      rw [dset_of_fresh]
      intro kw hkw
      exact fun he => hfresh x (List.mem_cons_self _ _) kw hkw he.symm
    rw [hx]
    have hnd2 : keysNodup e := by
      have := hnd
      unfold keysNodup dkeys at this
      simp only [List.map_cons, List.nodup_cons] at this
      exact this.2
    have hxe : x.1 ∉ dkeys e := by
      have := hnd
      unfold keysNodup dkeys at this
      simp only [List.map_cons, List.nodup_cons] at this
      exact this.1
    rw [ih hnd2]
    · simp
    · intro kv hkv kw hkw
      rcases List.mem_append.mp hkw with h1 | h1
      · exact hfresh kv (List.mem_cons_of_mem _ hkv) kw h1
      · rw [List.mem_singleton] at h1
        subst h1
        intro he
        exact hxe (he ▸ List.mem_map_of_mem Prod.fst hkv)

theorem dlookup_append_left {d e : Dict} {k : String} {v : PVal}
    (h : dlookup d k = some v) : dlookup (d ++ e) k = some v := by
  induction d with
  | nil => exact absurd h (by simp [dlookup])
  | cons x d ih =>
    cases x with
    | mk k1 v1 =>
      rw [dlookup_cons] at h
      rw [List.cons_append, dlookup_cons]
      by_cases hk : k1 == k
      · rw [if_pos hk] at h ⊢
        exact h
      · rw [if_neg hk] at h ⊢
        exact ih h

theorem dlookup_append_right {d e : Dict} {k : String}
    (h : ∀ kv ∈ d, kv.1 ≠ k) : dlookup (d ++ e) k = dlookup e k := by
  induction d with
  | nil => rfl
  | cons x d ih =>
    have hx : ¬(x.1 == k) = true := by
      simpa using h x (List.mem_cons_self _ _)
    cases x with
    | mk k1 v1 =>
      rw [List.cons_append, dlookup_cons, if_neg hx]
      exact ih (fun kv hkv => h kv (List.mem_cons_of_mem _ hkv))

theorem dlookup_eq_none_of_forall_ne {d : Dict} {k : String}
    (h : ∀ kv ∈ d, kv.1 ≠ k) : dlookup d k = Option.none := by
  induction d with
  | nil => rfl
  | cons x d ih =>
    have hx : ¬(x.1 == k) = true := by
      simpa using h x (List.mem_cons_self _ _)
    cases x with
    | mk k1 v1 =>
      rw [dlookup_cons, if_neg hx]
      exact ih (fun kv hkv => h kv (List.mem_cons_of_mem _ hkv))

theorem hasKey_sentParams_false {d : Dict} {k : String}
    (h : ∀ v : PVal, (k, v) ∈ d → v = PVal.none) :
    hasKey (sentParams d) k = false := by
  unfold hasKey
  rw [dlookup_eq_none_of_forall_ne]
  · rfl
  · intro kv hkv hk1
    have hmem : kv ∈ d := List.mem_of_mem_filter hkv
    have hval : kv.2 ≠ PVal.none := by
      have := List.of_mem_filter hkv
      simp only [Bool.not_eq_true] at this
      intro he
      rw [show kv.2.isNone = true from he ▸ rfl] at this
      exact Bool.noConfusion this
    have : kv.2 = PVal.none := by
      apply h kv.2
      have : kv = (k, kv.2) := by
        cases kv; simp_all
      exact this ▸ hmem
    exact hval this

/-! ### Enumerated member-key lemmas -/

theorem listGetElem_append_of_some {α : Type} {l1 : List α} (l2 : List α) {i : Nat}
    {c : α} (h : l1[i]? = some c) : (l1 ++ l2)[i]? = some c := by
  have hi : i < l1.length := by
    by_contra hn
    rw [List.getElem?_eq_none (by omega)] at h
    exact Option.noConfusion h
  calc (l1 ++ l2)[i]? = l1[i]? := List.getElem?_append_left hi
    _ = some c := h

theorem memberKey_eq_append (p f : String) (i : Nat) :
    memberKey p i f = (p ++ ".") ++ (toString i ++ ("." ++ f)) := by
  apply strExt
  unfold memberKey
  simp only [strData_append, List.append_assoc]

theorem memberKey_idx_inj {p f : String} {i j : Nat}
    (h : memberKey p i f = memberKey p j f) : i = j := by
  unfold memberKey at h
  exact natToString_inj (strAppend_left_cancel
    (strAppend_right_cancel (strAppend_right_cancel h)))

theorem memberKey_field_inj {p f g : String} {i : Nat}
    (h : memberKey p i f = memberKey p i g) : f = g := strAppend_left_cancel h

theorem memberKey_field_ne {p : String} {f g : String} (i j : Nat)
    (c1 c2 : Char) (hf : f.data.getLast? = some c1)
    (hg : g.data.getLast? = some c2) (hne : c1 ≠ c2) :
    memberKey p i f ≠ memberKey p j g := by
  intro h
  have hd := congrArg String.data h
  have h1 : (memberKey p i f).data.getLast? = some c1 := by
    show ((p ++ "." ++ toString i ++ ".") ++ f).data.getLast? = some c1
    rw [strData_append, List.getLast?_append, hf]
    rfl
  have h2 : (memberKey p j g).data.getLast? = some c2 := by
    show ((p ++ "." ++ toString j ++ ".") ++ g).data.getLast? = some c2
    rw [strData_append, List.getLast?_append, hg]
    rfl
  rw [hd, h2] at h1
  exact hne (Option.some.inj (Eq.symm h1))

theorem memberKey_ne_of_ne (p : String) {i j : Nat} {f g : String}
    (hf : f ∈ fields3) (hg : g ∈ fields3) (hne : i ≠ j ∨ f ≠ g) :
    memberKey p i f ≠ memberKey p j g := by
  by_cases hfg : f = g
  · subst hfg
    have hij : i ≠ j := by
      rcases hne with h | h
      · exact h
      · exact absurd rfl h
    exact fun h => hij (memberKey_idx_inj h)
  · have hU : ("SellerSKU" : String).data.getLast? = some 'U' := by decide
    have hd : ("QuantityShipped" : String).data.getLast? = some 'd' := by decide
    have he : ("QuantityInCase" : String).data.getLast? = some 'e' := by decide
    fin_cases hf <;> fin_cases hg <;>
      first
        | exact absurd rfl hfg
        | exact memberKey_field_ne i j 'U' 'd' hU hd (by decide)
        | exact memberKey_field_ne i j 'U' 'e' hU he (by decide)
        | exact memberKey_field_ne i j 'd' 'U' hd hU (by decide)
        | exact memberKey_field_ne i j 'd' 'e' hd he (by decide)
        | exact memberKey_field_ne i j 'e' 'U' he hU (by decide)
        | exact memberKey_field_ne i j 'e' 'd' he hd (by decide)

theorem memberKey_ne_of_prefix_char (i : Nat) (c1 c2 : Char) {p K : String}
    (hp : p.data[i]? = some c1) (hK : K.data[i]? = some c2) (hne : c1 ≠ c2) :
    ∀ s : String, p ++ s ≠ K := by
  intro s h
  have hd := congrArg String.data h
  rw [strData_append] at hd
  have h1 : (p.data ++ s.data)[i]? = some c1 := listGetElem_append_of_some _ hp
  rw [hd, hK] at h1
  exact hne (Option.some.inj (Eq.symm h1))

/-- Every key enumerated under `InboundShipmentItems.member` differs from any
string whose 16th character is not the `I` of `Items` (in particular from all
`Action`, `ShipmentId` and `InboundShipmentHeader.*` keys). -/
theorem itemsMemberKey_ne (i : Nat) (f K : String)
    (hK : K.data[15]? ≠ some 'I') :
    memberKey "InboundShipmentItems.member" i f ≠ K := by
  rw [memberKey_eq_append]
  intro h
  have h1 : (("InboundShipmentItems.member" ++ ".").data ++
      (toString i ++ ("." ++ f)).data)[15]? = some 'I' :=
    listGetElem_append_of_some _ (by decide)
  rw [← strData_append, h] at h1
  exact hK h1

/-! ### Lookup through updates -/

theorem dlookup_map_replace_ne {d : Dict} {k0 k : String} (v : PVal) (h : k0 ≠ k) :
    dlookup (d.map (fun p => if p.1 == k0 then (k0, v) else p)) k = dlookup d k := by
  induction d with
  | nil => rfl
  | cons x d ih =>
    cases x with
    | mk k1 v1 =>
      simp only [List.map_cons]
      by_cases h1 : (k1 == k0) = true
      · have hk1 : k1 = k0 := eq_of_beq h1
        have e1 : (if ((k1, v1).1 == k0) = true then (k0, v) else (k1, v1)) = (k0, v) :=
          if_pos h1
        have hne0 : ¬(k0 == k) = true := by simpa using h
        have hne1 : ¬(k1 == k) = true := by simpa [hk1] using h
        rw [e1, dlookup_cons, dlookup_cons, if_neg hne0, if_neg hne1, ih]
      · have e1 : (if ((k1, v1).1 == k0) = true then (k0, v) else (k1, v1)) = (k1, v1) :=
          if_neg h1
        rw [e1, dlookup_cons, dlookup_cons, ih]

theorem dlookup_append (d e : Dict) (k : String) :
    dlookup (d ++ e) k =
      match dlookup d k with
      | some v => some v
      | Option.none => dlookup e k := by
  induction d with
  | nil => rfl
  | cons x d ih =>
    cases x with
    | mk k1 v1 =>
      rw [List.cons_append, dlookup_cons, dlookup_cons]
      by_cases h1 : (k1 == k) = true
      · rw [if_pos h1, if_pos h1]
      · rw [if_neg h1, if_neg h1, ih]

theorem dlookup_dset_ne {d : Dict} {k0 k : String} (v : PVal) (h : k0 ≠ k) :
    dlookup (dset d k0 v) k = dlookup d k := by
  unfold dset
  by_cases hc : d.any (fun p => p.1 == k0)
  · rw [if_pos hc]
    exact dlookup_map_replace_ne v h
  · rw [if_neg hc, dlookup_append]
    have hne0 : ¬(k0 == k) = true := by simpa using h
    cases hv : dlookup d k with
    | some v1 => rfl
    | none => rw [dlookup_cons, if_neg hne0, dlookup_nil]

theorem dlookup_dupdate_of_ne {d e : Dict} {k : String}
    (h : ∀ kv ∈ e, kv.1 ≠ k) : dlookup (dupdate d e) k = dlookup d k := by
  induction e generalizing d with
  | nil => rfl
  | cons x e ih =>
    rw [dupdate_cons, ih (fun kv hkv => h kv (List.mem_cons_of_mem _ hkv)),
        dlookup_dset_ne x.2 (h x (List.mem_cons_self _ _))]

/-! ### Structure of `enumerate_keyed_param` -/

theorem enumerate_keyed_param_eq_foldl (p : String) (ds : List Dict) :
    enumerate_keyed_param p ds =
      (List.enumFrom 0 ds).foldl
        (fun acc iv => dupdate acc (memberBlock p (iv.1 + 1) iv.2)) [] := rfl

theorem keysNodup_foldl_dupdate (p : String) (l : List (Nat × Dict)) :
    ∀ acc : Dict, keysNodup acc →
      keysNodup (l.foldl (fun acc iv => dupdate acc (memberBlock p (iv.1 + 1) iv.2)) acc) := by
  induction l with
  | nil => exact fun acc h => h
  | cons x l ih =>
    intro acc h
    exact ih _ (keysNodup_dupdate _ h)

theorem keysNodup_enumerate_keyed_param (p : String) (ds : List Dict) :
    keysNodup (enumerate_keyed_param p ds) := by
  rw [enumerate_keyed_param_eq_foldl]
  exact keysNodup_foldl_dupdate p _ [] List.nodup_nil

theorem mem_foldl_key_form (p : String) (l : List (Nat × Dict)) :
    ∀ acc : Dict, (∀ kv ∈ acc, ∃ i f, kv.1 = memberKey p i f) →
      ∀ kv ∈ l.foldl (fun acc iv => dupdate acc (memberBlock p (iv.1 + 1) iv.2)) acc,
        ∃ i f, kv.1 = memberKey p i f := by
  induction l with
  | nil => exact fun acc h => h
  | cons x l ih =>
    intro acc hacc kv hkv
    refine ih _ ?_ kv hkv
    intro kw hkw
    rcases mem_dupdate hkw with h1 | h1
    · exact hacc kw h1
    · obtain ⟨kv0, _, hkv0⟩ := List.mem_map.mp h1
      exact ⟨x.1 + 1, kv0.1, by rw [← hkv0]⟩

theorem mem_enumerate_keyed_param_key (p : String) (ds : List Dict) :
    ∀ kv ∈ enumerate_keyed_param p ds, ∃ i f, kv.1 = memberKey p i f := by
  rw [enumerate_keyed_param_eq_foldl]
  exact mem_foldl_key_form p _ [] (by intro kv h; exact absurd h (List.not_mem_nil kv))

theorem dkeys_memberBlock (p : String) (n : Nat) (d : Dict) :
    dkeys (memberBlock p n d) = (dkeys d).map (memberKey p n) := by
  unfold dkeys memberBlock
  rw [List.map_map, List.map_map]
  rfl

theorem foldl_blocks_eq_append (p : String) (ds : List Dict)
    (hf : ∀ d ∈ ds, dkeys d = fields3) :
    ∀ (n : Nat) (acc : Dict), keysNodup acc →
      (∀ kv ∈ acc, ∃ j g, j < n ∧ g ∈ fields3 ∧ kv.1 = memberKey p (j + 1) g) →
      (List.enumFrom n ds).foldl
          (fun acc iv => dupdate acc (memberBlock p (iv.1 + 1) iv.2)) acc
        = acc ++ flattenBlocks p n ds := by
  induction ds with
  | nil =>
    intro n acc _ _
    simp [flattenBlocks]
  | cons d ds ih =>
    intro n acc hnd hacc
    have hdk : dkeys d = fields3 := hf d (List.mem_cons_self _ _)
    have hblockkeys : dkeys (memberBlock p (n + 1) d) =
        [memberKey p (n + 1) "SellerSKU", memberKey p (n + 1) "QuantityShipped",
         memberKey p (n + 1) "QuantityInCase"] := by
      rw [dkeys_memberBlock, hdk]
      rfl
    have hkeyform : ∀ kv ∈ memberBlock p (n + 1) d,
        ∃ g ∈ fields3, kv.1 = memberKey p (n + 1) g := by
      intro kv hkv
      obtain ⟨kv0, hkv0m, hkv0⟩ := List.mem_map.mp hkv
      refine ⟨kv0.1, ?_, by rw [← hkv0]⟩
      rw [← hdk]
      exact List.mem_map_of_mem Prod.fst hkv0m
    have hblocknd : keysNodup (memberBlock p (n + 1) d) := by
      unfold keysNodup
      rw [hblockkeys]
      refine List.nodup_cons.mpr ⟨?_, List.nodup_cons.mpr ⟨?_, List.nodup_singleton _⟩⟩
      · intro hm
        rcases List.mem_cons.mp hm with h1 | h1
        · exact memberKey_ne_of_ne p (by decide) (by decide) (Or.inr (by decide)) h1
        · rw [List.mem_singleton] at h1
          exact memberKey_ne_of_ne p (by decide) (by decide) (Or.inr (by decide)) h1
      · intro hm
        rw [List.mem_singleton] at hm
        exact memberKey_ne_of_ne p (by decide) (by decide) (Or.inr (by decide)) hm
    have hfresh : ∀ kv ∈ memberBlock p (n + 1) d, ∀ kw ∈ acc, kv.1 ≠ kw.1 := by
      intro kv hkv kw hkw
      obtain ⟨g, hg, hkvk⟩ := hkeyform kv hkv
      obtain ⟨j, g2, hj, hg2, hkwk⟩ := hacc kw hkw
      rw [hkvk, hkwk]
      exact memberKey_ne_of_ne p hg hg2 (Or.inl (by omega))
    have hstep : dupdate acc (memberBlock p (n + 1) d) = acc ++ memberBlock p (n + 1) d :=
      dupdate_eq_append_of_fresh hblocknd hfresh
    have henum : List.enumFrom n (d :: ds) = (n, d) :: List.enumFrom (n + 1) ds := rfl
    rw [henum, List.foldl_cons]
    show (List.enumFrom (n + 1) ds).foldl
        (fun acc iv => dupdate acc (memberBlock p (iv.1 + 1) iv.2))
        (dupdate acc (memberBlock p (n + 1) d)) = acc ++ flattenBlocks p n (d :: ds)
    rw [hstep]
    have hnd2 : keysNodup (acc ++ memberBlock p (n + 1) d) := by
      unfold keysNodup dkeys
      rw [List.map_append]
      refine List.Nodup.append hnd hblocknd ?_
      intro x hx1 hx2
      obtain ⟨kw, hkw, hkwe⟩ := List.mem_map.mp hx1
      obtain ⟨kv, hkv, hkve⟩ := List.mem_map.mp hx2
      exact hfresh kv hkv kw hkw (by rw [hkve, hkwe])
    have hacc2 : ∀ kv ∈ acc ++ memberBlock p (n + 1) d,
        ∃ j g, j < n + 1 ∧ g ∈ fields3 ∧ kv.1 = memberKey p (j + 1) g := by
      intro kv hkv
      rcases List.mem_append.mp hkv with h1 | h1
      · obtain ⟨j, g, hj, hg, hk⟩ := hacc kv h1
        exact ⟨j, g, by omega, hg, hk⟩
      · obtain ⟨g, hg, hk⟩ := hkeyform kv h1
        exact ⟨n, g, by omega, hg, hk⟩
    rw [ih (fun d2 h2 => hf d2 (List.mem_cons_of_mem _ h2)) (n + 1)
        (acc ++ memberBlock p (n + 1) d) hnd2 hacc2]
    show (acc ++ memberBlock p (n + 1) d) ++ flattenBlocks p (n + 1) ds
        = acc ++ (memberBlock p (n + 1) d ++ flattenBlocks p (n + 1) ds)
    rw [List.append_assoc]

theorem enumerate_keyed_param_eq_flatten (p : String) (ds : List Dict)
    (hf : ∀ d ∈ ds, dkeys d = fields3) :
    enumerate_keyed_param p ds = flattenBlocks p 0 ds := by
  rw [enumerate_keyed_param_eq_foldl]
  have h := foldl_blocks_eq_append p ds hf 0 [] List.nodup_nil
    (by intro kv h; exact absurd h (List.not_mem_nil kv))
  simpa using h

theorem block_mem_flattenBlocks (p : String) :
    ∀ (ds : List Dict) (n i : Nat) (hi : i < ds.length) (kv : String × PVal),
      kv ∈ memberBlock p (n + i + 1) (ds.get ⟨i, hi⟩) → kv ∈ flattenBlocks p n ds := by
  intro ds
  induction ds with
  | nil =>
    intro n i hi
    exact absurd hi (by simp)
  | cons d ds ih =>
    intro n i hi kv hkv
    cases i with
    | zero =>
      exact List.mem_append_left _ hkv
    | succ i =>
      refine List.mem_append_right _ ?_
      have hi2 : i < ds.length := by simpa using hi
      have harith : n + (i + 1) + 1 = (n + 1) + i + 1 := by omega
      refine ih (n + 1) i hi2 kv ?_
      rw [harith] at hkv
      exact hkv

/-! ### Item parser lemmas -/

theorem itemOutput_nonplan (op : String) (hop : (op == "CreateInboundShipmentPlan") = false)
    (d : Dict) :
    itemOutput op d =
      [("SellerSKU", dget d "sku"),
       ("QuantityShipped", strOrNone (dget d "quantity")),
       ("QuantityInCase", strOrNone (dget d "quantity_in_case"))] := by
  unfold itemOutput itemKeyConfig quantityKey
  rw [hop]
  rfl

theorem itemOutput_plan (d : Dict) :
    itemOutput "CreateInboundShipmentPlan" d =
      [("SellerSKU", dget d "sku"),
       ("Quantity", strOrNone (dget d "quantity")),
       ("QuantityInCase", strOrNone (dget d "quantity_in_case")),
       ("ASIN", dgetD d "asin" PVal.none),
       ("Condition", dgetD d "condition" PVal.none)] := rfl

theorem parseOneItem_ok (op : String) {v : PVal} (hv : validItem v = true) :
    parseOneItem op v = Except.ok (itemOutput op (asDict v)) := by
  cases v with
  | dict d =>
    have hv2 : hasKey d "sku" = true ∧ hasKey d "quantity" = true := by
      simpa [validItem, Bool.and_eq_true] using hv
    have hreq : (requiredKeys (itemKeyConfig op)).all (fun k => hasKey d k) = true := by
      unfold itemKeyConfig
      by_cases hop : (op == "CreateInboundShipmentPlan") = true
      · rw [if_pos hop]
        show List.all ["sku", "quantity"] (fun k => hasKey d k) = true
        simp [hv2.1, hv2.2]
      · rw [if_neg hop]
        show List.all ["sku", "quantity"] (fun k => hasKey d k) = true
        simp [hv2.1, hv2.2]
    simp only [parseOneItem, hreq, Bool.not_true, Bool.false_eq_true, if_false, asDict]
  | none => exact Bool.noConfusion hv
  | str s => exact Bool.noConfusion hv
  | int n => exact Bool.noConfusion hv
  | bool b => exact Bool.noConfusion hv

theorem parseItems_ok (op : String) {items : List PVal}
    (h : ∀ v ∈ items, validItem v = true) :
    parseItems op items =
      Except.ok (items.map (fun v => itemOutput op (asDict v))) := by
  induction items with
  | nil => rfl
  | cons v vs ih =>
    unfold parseItems
    rw [parseOneItem_ok op (h v (List.mem_cons_self _ _)),
        ih (fun w hw => h w (List.mem_cons_of_mem _ hw))]
    rfl

theorem parse_item_args_ok (op : String) {items : List PVal} (hne : items ≠ [])
    (h : ∀ v ∈ items, validItem v = true) :
    parse_item_args items op =
      Except.ok (items.map (fun v => itemOutput op (asDict v))) := by
  unfold parse_item_args
  have hE : items.isEmpty = false := by
    cases items with
    | nil => exact absurd rfl hne
    | cons v vs => rfl
  rw [hE]
  show parseItems op items = _
  exact parseItems_ok op h

theorem dkeys_itemOutput_nonplan (op : String)
    (hop : (op == "CreateInboundShipmentPlan") = false) (d : Dict) :
    dkeys (itemOutput op d) = fields3 := by
  rw [itemOutput_nonplan op hop d]
  rfl

/-! ### Success equations for the create/update builders -/

theorem create_inbound_shipment_ok (a : Dict) (sid sname dest ss lp : String)
    (cr : Bool) (bcs : PVal) {items : List PVal} (hne : items ≠ [])
    (hvalid : ∀ v ∈ items, validItem v = true) :
    create_inbound_shipment (some (parsedAddress a)) (PVal.str sid) (PVal.str sname)
        (PVal.str dest) items ss lp cr bcs =
      Except.ok (dupdate (dupdate
        [("Action", PVal.str "CreateInboundShipment"),
         ("ShipmentId", PVal.str sid),
         ("InboundShipmentHeader.ShipmentName", PVal.str sname),
         ("InboundShipmentHeader.DestinationFulfillmentCenterId", PVal.str dest),
         ("InboundShipmentHeader.LabelPrepPreference",
            if LABEL_PREFERENCES.contains lp then PVal.str lp else PVal.none),
         ("InboundShipmentHeader.AreCasesRequired",
            PVal.str (if cr then "true" else "false")),
         ("InboundShipmentHeader.ShipmentStatus",
            PVal.str (if SHIPMENT_STATUSES.contains ss then ss else DEFAULT_SHIP_STATUS)),
         ("InboundShipmentHeader.IntendedBoxContentsSource", bcs)]
        (headerFromAddress (parsedAddress a)))
        (enumerate_keyed_param "InboundShipmentItems.member"
          (items.map (fun v => itemOutput "CreateInboundShipment" (asDict v))))) := by
  unfold create_inbound_shipment
  rw [parse_item_args_ok _ hne hvalid]
  have hE : items.isEmpty = false := by
    cases items with
    | nil => exact absurd rfl hne
    | cons v vs => rfl
  simp [isStr, hE, fromAddressSet, parsedAddress, addressKeyConfig]

theorem update_inbound_shipment_ok (a : Dict) (sid sname dest ss lp : String)
    (cr : Bool) (bcs : PVal) {items : List PVal} (hne : items ≠ [])
    (hvalid : ∀ v ∈ items, validItem v = true) :
    update_inbound_shipment (some (parsedAddress a)) (PVal.str sid) (PVal.str sname)
        (PVal.str dest) items ss lp cr bcs =
      Except.ok (dupdate (dupdate
        [("Action", PVal.str "UpdateInboundShipment"),
         ("ShipmentId", PVal.str sid),
         ("InboundShipmentHeader.ShipmentName", PVal.str sname),
         ("InboundShipmentHeader.DestinationFulfillmentCenterId", PVal.str dest),
         ("InboundShipmentHeader.LabelPrepPreference",
            if LABEL_PREFERENCES.contains lp then PVal.str lp else PVal.none),
         ("InboundShipmentHeader.AreCasesRequired",
            PVal.str (if cr then "true" else "false")),
         ("InboundShipmentHeader.ShipmentStatus",
            if SHIPMENT_STATUSES.contains ss then PVal.str ss else PVal.none),
         ("InboundShipmentHeader.IntendedBoxContentsSource", bcs)]
        (headerFromAddress (parsedAddress a)))
        (enumerate_keyed_param "InboundShipmentItems.member"
          (items.map (fun v => itemOutput "UpdateInboundShipment" (asDict v))))) := by
  unfold update_inbound_shipment
  rw [parse_item_args_ok _ hne hvalid]
  have hE : items.isEmpty = false := by
    cases items with
    | nil => exact absurd rfl hne
    | cons v vs => rfl
  have hmapE :
      (items.map (fun v => itemOutput "UpdateInboundShipment" (asDict v))).isEmpty
        = false := by
    cases items with
    | nil => exact absurd rfl hne
    | cons v vs => rfl
  simp [isStr, hE, hmapE, fromAddressSet, parsedAddress, addressKeyConfig]

theorem update_inbound_shipment_ok_noitems (a : Dict) (sid sname dest ss lp : String)
    (cr : Bool) (bcs : PVal) :
    update_inbound_shipment (some (parsedAddress a)) (PVal.str sid) (PVal.str sname)
        (PVal.str dest) [] ss lp cr bcs =
      Except.ok (dupdate
        [("Action", PVal.str "UpdateInboundShipment"),
         ("ShipmentId", PVal.str sid),
         ("InboundShipmentHeader.ShipmentName", PVal.str sname),
         ("InboundShipmentHeader.DestinationFulfillmentCenterId", PVal.str dest),
         ("InboundShipmentHeader.LabelPrepPreference",
            if LABEL_PREFERENCES.contains lp then PVal.str lp else PVal.none),
         ("InboundShipmentHeader.AreCasesRequired",
            PVal.str (if cr then "true" else "false")),
         ("InboundShipmentHeader.ShipmentStatus",
            if SHIPMENT_STATUSES.contains ss then PVal.str ss else PVal.none),
         ("InboundShipmentHeader.IntendedBoxContentsSource", bcs)]
        (headerFromAddress (parsedAddress a))) := by
  unfold update_inbound_shipment
  simp [isStr, fromAddressSet, parsedAddress, addressKeyConfig]

/-! ### Small shared helpers -/

theorem dgetD_of_hasKey_false {d : Dict} {k : String} (v : PVal)
    (h : hasKey d k = false) : dgetD d k v = v := by
  unfold hasKey at h
  unfold dgetD
  cases hv : dlookup d k with
  | some v1 => rw [hv] at h; exact Bool.noConfusion h
  | none => rfl

theorem ne_itemsPrefix (K : String) (hK : K.data[15]? ≠ some 'I') (s : String) :
    K ≠ "InboundShipmentItems." ++ s := by
  intro h
  have h1 : (("InboundShipmentItems." : String).data ++ s.data)[15]? = some 'I' :=
    listGetElem_append_of_some _ (by decide)
  rw [← strData_append, ← h] at h1
  exact hK h1

theorem headerPrefix_ne_itemsPrefix (x s : String) :
    "InboundShipmentHeader." ++ x ≠ "InboundShipmentItems." ++ s := by
  intro h
  have h1 : (("InboundShipmentHeader." : String).data ++ x.data)[15]? = some 'H' :=
    listGetElem_append_of_some _ (by decide)
  have h2 : (("InboundShipmentItems." : String).data ++ s.data)[15]? = some 'I' :=
    listGetElem_append_of_some _ (by decide)
  rw [← strData_append] at h1 h2
  rw [h] at h1
  have := h1.symm.trans h2
  exact absurd this (by decide)

theorem shipFromAddress_ne_shipmentStatus (x : String) :
    "ShipFromAddress." ++ x ≠ "ShipmentStatus" := by
  intro h
  have h1 : (("ShipFromAddress." : String).data ++ x.data)[4]? = some 'F' :=
    listGetElem_append_of_some _ (by decide)
  rw [← strData_append, h] at h1
  exact absurd h1 (by decide)

theorem mem_enumerate_param_key (p : String) (vs : List String) :
    ∀ kv ∈ enumerate_param p vs, ∃ i : Nat, kv.1 = p ++ toString i := by
  unfold enumerate_param
  have hgen : ∀ (l : List (Nat × String)) (acc : Dict),
      (∀ kv ∈ acc, ∃ i : Nat, kv.1 = p ++ toString i) →
      ∀ kv ∈ l.foldl
        (fun acc iv => dset acc (p ++ toString (iv.1 + 1)) (PVal.str iv.2)) acc,
        ∃ i : Nat, kv.1 = p ++ toString i := by
    intro l
    induction l with
    | nil => exact fun acc h => h
    | cons x l ih =>
      intro acc hacc kv hkv
      refine ih _ ?_ kv hkv
      intro kw hkw
      rcases mem_dset hkw with h1 | h1
      · exact hacc kw h1
      · exact ⟨x.1 + 1, by rw [h1]⟩
  exact hgen _ [] (by intro kv h; exact absurd h (List.not_mem_nil kv))

/-! ### Claim theorems -/

/-- C1: for each token-paginated method (`list_inbound_shipments`,
`list_inbound_shipment_items`, `get_report_list`, `get_report_request_list`),
a call with a non-empty `next_token` produces a request whose parameter mapping
is exactly `Action=<OperationName>ByNextToken, NextToken=<token>`, with no key
derived from any other argument. -/
theorem c1_next_token_bypass (tok : String) (htok : tok ≠ "")
    (shipment_ids shipment_statuses : Option (List String))
    (lua lub : Option String) (shipment_id : PVal) (lua2 lub2 : Option String)
    (requestids types : List String)
    (max_count acknowledged fromdate todate : PVal)
    (requestids2 types2 processingstatuses2 : List String)
    (max_count2 fromdate2 todate2 : PVal) :
    list_inbound_shipments shipment_ids shipment_statuses lua lub (some tok) =
      [("Action", PVal.str "ListInboundShipmentsByNextToken"),
       ("NextToken", PVal.str tok)]
    ∧ list_inbound_shipment_items shipment_id lua2 lub2 (some tok) =
      [("Action", PVal.str "ListInboundShipmentItemsByNextToken"),
       ("NextToken", PVal.str tok)]
    ∧ get_report_list requestids max_count types acknowledged fromdate todate
        (some tok) =
      [("Action", PVal.str "GetReportListByNextToken"),
       ("NextToken", PVal.str tok)]
    ∧ get_report_request_list requestids2 types2 processingstatuses2 max_count2
        fromdate2 todate2 (some tok) =
      [("Action", PVal.str "GetReportRequestListByNextToken"),
       ("NextToken", PVal.str tok)] := by
  have hbeq : (tok == "") = false := by simpa using htok
  refine ⟨?_, ?_, ?_, ?_⟩ <;>
    simp [list_inbound_shipments, list_inbound_shipment_items, get_report_list,
      get_report_request_list, next_token_action, hbeq]

theorem c1_next_token_bypass_witness :
    list_inbound_shipments Option.none Option.none Option.none Option.none
        (some "tok") =
      [("Action", PVal.str "ListInboundShipmentsByNextToken"),
       ("NextToken", PVal.str "tok")] :=
  (c1_next_token_bypass "tok" (by decide) Option.none Option.none Option.none
    Option.none PVal.none Option.none Option.none [] [] PVal.none PVal.none
    PVal.none PVal.none [] [] [] PVal.none PVal.none PVal.none).1

/-- C10: `set_ship_from_address` clears the stored address before validating,
so whenever a call fails — whatever address state the client held before —
the client is left with no stored address. -/
theorem c10_set_address_clears_on_error (prior : Option Dict) (address : PVal)
    (h : ∃ e, (set_ship_from_address prior address).result = Except.error e) :
    (set_ship_from_address prior address).newFromAddress = Option.none := by
  obtain ⟨e, he⟩ := h
  cases address with
  | dict a =>
    by_cases ht : pvTruthy (PVal.dict a) = true
    · by_cases hreq :
          ((requiredKeys addressKeyConfig).all (fun k => hasKey a k)) = true
      · exfalso
        simp [set_ship_from_address, ht, hreq] at he
      · simp [set_ship_from_address, ht, hreq]
    · simp [set_ship_from_address, ht]
  | none => simp [set_ship_from_address, pvTruthy]
  | str s =>
    by_cases ht : pvTruthy (PVal.str s) = true <;>
      simp [set_ship_from_address, ht]
  | int n =>
    by_cases ht : pvTruthy (PVal.int n) = true <;>
      simp [set_ship_from_address, ht]
  | bool b =>
    by_cases ht : pvTruthy (PVal.bool b) = true <;>
      simp [set_ship_from_address, ht]

theorem c10_set_address_clears_on_error_witness :
    (set_ship_from_address (some [("ShipFromAddress.Name", PVal.str "X")])
      (PVal.dict [])).newFromAddress = Option.none :=
  c10_set_address_clears_on_error _ _
    ⟨PyErr.mwsError "Missing required `address` dict.", rfl⟩

/-- C3 counterexample: under the plan-creation schema, an item without `asin`
and `condition` still yields an output mapping in which the keys `ASIN` and
`Condition` are present (with a null value) — they are not omitted as the
claim states. -/
theorem c3_counterexample :
    parse_item_args [PVal.dict [("sku", PVal.str "S1"), ("quantity", PVal.int 2)]]
        "CreateInboundShipmentPlan" =
      Except.ok [[("SellerSKU", PVal.str "S1"), ("Quantity", PVal.str "2"),
        ("QuantityInCase", PVal.none), ("ASIN", PVal.none),
        ("Condition", PVal.none)]]
    ∧ hasKey [("SellerSKU", PVal.str "S1"), ("Quantity", PVal.str "2"),
        ("QuantityInCase", PVal.none), ("ASIN", PVal.none),
        ("Condition", PVal.none)] "ASIN" = true
    ∧ hasKey [("SellerSKU", PVal.str "S1"), ("Quantity", PVal.str "2"),
        ("QuantityInCase", PVal.none), ("ASIN", PVal.none),
        ("Condition", PVal.none)] "Condition" = true :=
  ⟨rfl, rfl, rfl⟩

/-- C3 (amended): under the plan-creation schema, `asin` and `condition` are
passed through unchanged when present; when absent, the `ASIN`/`Condition`
keys are still emitted with a null value — exactly like `QuantityInCase`,
which is always present — rather than omitted. -/
theorem c3_plan_asin_condition (d : Dict)
    (hsku : hasKey d "sku" = true) (hq : hasKey d "quantity" = true) :
    parseOneItem "CreateInboundShipmentPlan" (PVal.dict d) =
        Except.ok (itemOutput "CreateInboundShipmentPlan" d)
    ∧ dlookup (itemOutput "CreateInboundShipmentPlan" d) "ASIN"
        = some (dgetD d "asin" PVal.none)
    ∧ dlookup (itemOutput "CreateInboundShipmentPlan" d) "Condition"
        = some (dgetD d "condition" PVal.none)
    ∧ hasKey (itemOutput "CreateInboundShipmentPlan" d) "ASIN" = true
    ∧ hasKey (itemOutput "CreateInboundShipmentPlan" d) "Condition" = true
    ∧ hasKey (itemOutput "CreateInboundShipmentPlan" d) "QuantityInCase" = true
    ∧ (hasKey d "asin" = false → dgetD d "asin" PVal.none = PVal.none)
    ∧ (hasKey d "condition" = false → dgetD d "condition" PVal.none = PVal.none) := by
  refine ⟨parseOneItem_ok _ (by simp [validItem, hsku, hq]), ?_, ?_, ?_, ?_, ?_,
    fun h => dgetD_of_hasKey_false PVal.none h,
    fun h => dgetD_of_hasKey_false PVal.none h⟩ <;>
    rw [itemOutput_plan] <;> rfl

theorem c3_plan_asin_condition_witness :
    dlookup (itemOutput "CreateInboundShipmentPlan"
        [("sku", PVal.str "S1"), ("quantity", PVal.int 2),
         ("asin", PVal.str "B000123")]) "ASIN" =
      some (dgetD [("sku", PVal.str "S1"), ("quantity", PVal.int 2),
         ("asin", PVal.str "B000123")] "asin" PVal.none) :=
  (c3_plan_asin_condition
    [("sku", PVal.str "S1"), ("quantity", PVal.int 2),
     ("asin", PVal.str "B000123")] rfl rfl).2.1

/-- C5 counterexample: a non-text `shipment_id` makes `create_inbound_shipment`
fail with an `AssertionError`, which is a different error kind from the
`MWSError` raised for an empty item list — not the module's single
caller/validation error kind as the claim states. -/
theorem c5_counterexample :
    create_inbound_shipment Option.none (PVal.int 5) (PVal.str "nm")
        (PVal.str "dst") [PVal.dict [("sku", PVal.str "A"), ("quantity", PVal.int 1)]]
        "" "" false PVal.none
      = Except.error (PyErr.assertionError "`shipment_id` must be a string.")
    ∧ create_inbound_shipment Option.none (PVal.str "id") (PVal.str "nm")
        (PVal.str "dst") [] "" "" false PVal.none
      = Except.error (PyErr.mwsError "One or more `item` dict arguments required.")
    ∧ PyErr.isAssertion (PyErr.assertionError "`shipment_id` must be a string.")
      ≠ PyErr.isAssertion
          (PyErr.mwsError "One or more `item` dict arguments required.") :=
  ⟨rfl, rfl, by decide⟩

/-- C5 (amended): a non-text `shipment_id`, `shipment_name` or `destination`
makes `create_inbound_shipment` and `update_inbound_shipment` fail before any
request is built — but with Python's `AssertionError` (from the `assert`
statements), not with the `MWSError` kind used for the other validation
failures. -/
theorem c5_type_asserts (fromAddress : Option Dict) (sid sname dest : PVal)
    (items : List PVal) (ss lp : String) (cr : Bool) (bcs : PVal)
    (h : isStr sid = false ∨ isStr sname = false ∨ isStr dest = false) :
    (∃ m, create_inbound_shipment fromAddress sid sname dest items ss lp cr bcs
        = Except.error (PyErr.assertionError m))
    ∧ (∃ m, update_inbound_shipment fromAddress sid sname dest items ss lp cr bcs
        = Except.error (PyErr.assertionError m)) := by
  constructor
  · cases hsid : isStr sid with
    | false =>
      exact ⟨"`shipment_id` must be a string.",
        by simp [create_inbound_shipment, hsid]⟩
    | true =>
      cases hsname : isStr sname with
      | false =>
        exact ⟨"`shipment_name` must be a string.",
          by simp [create_inbound_shipment, hsid, hsname]⟩
      | true =>
        cases hdest : isStr dest with
        | false =>
          exact ⟨"`destination` must be a string.",
            by simp [create_inbound_shipment, hsid, hsname, hdest]⟩
        | true =>
          rcases h with h | h | h <;> simp_all
  · cases hsid : isStr sid with
    | false =>
      exact ⟨"`shipment_id` must be a string.",
        by simp [update_inbound_shipment, hsid]⟩
    | true =>
      cases hsname : isStr sname with
      | false =>
        exact ⟨"`shipment_name` must be a string.",
          by simp [update_inbound_shipment, hsid, hsname]⟩
      | true =>
        cases hdest : isStr dest with
        | false =>
          exact ⟨"`destination` must be a string.",
            by simp [update_inbound_shipment, hsid, hsname, hdest]⟩
        | true =>
          rcases h with h | h | h <;> simp_all

theorem c5_type_asserts_witness :
    (∃ m, create_inbound_shipment Option.none (PVal.int 7) (PVal.str "n")
        (PVal.str "d") [] "" "" false PVal.none
        = Except.error (PyErr.assertionError m))
    ∧ (∃ m, update_inbound_shipment Option.none (PVal.int 7) (PVal.str "n")
        (PVal.str "d") [] "" "" false PVal.none
        = Except.error (PyErr.assertionError m)) :=
  c5_type_asserts Option.none (PVal.int 7) (PVal.str "n") (PVal.str "d") []
    "" "" false PVal.none (Or.inl rfl)

/-- C7 counterexample: the empty dict is an address mapping missing all three
required keys, yet the setter fails with the `Missing required `address`
dict.` message, which is not the message enumerating required and optional
key names. -/
theorem c7_counterexample :
    (set_ship_from_address (some [("ShipFromAddress.Name", PVal.str "X")])
        (PVal.dict [])).result
      = Except.error (PyErr.mwsError "Missing required `address` dict.")
    ∧ "Missing required `address` dict."
      ≠ missingKeysMsg "address" addressKeyConfig :=
  ⟨rfl, by decide⟩

/-- C7 (amended): the address setter fails for every address mapping missing
any of `name`, `address_1`, `city` — with the message enumerating required
and optional key names when the mapping is non-empty, and with the
missing-address message when the mapping is empty; for every mapping with the
required keys it succeeds and stores `ShipFromAddress.CountryCode` as `US`
when `country` is omitted and as exactly the supplied value when it is
given. -/
theorem c7_address_setter (prior : Option Dict) (a : Dict) :
    ((a ≠ [] ∧ ¬(hasKey a "name" = true ∧ hasKey a "address_1" = true ∧
        hasKey a "city" = true)) →
      set_ship_from_address prior (PVal.dict a) =
        ⟨Option.none,
         Except.error (PyErr.mwsError (missingKeysMsg "address" addressKeyConfig))⟩)
    ∧ (a = [] →
      set_ship_from_address prior (PVal.dict a) =
        ⟨Option.none,
         Except.error (PyErr.mwsError "Missing required `address` dict.")⟩)
    ∧ ((hasKey a "name" = true ∧ hasKey a "address_1" = true ∧
        hasKey a "city" = true) →
      set_ship_from_address prior (PVal.dict a) =
          ⟨some (parsedAddress a), Except.ok ()⟩
      ∧ dlookup (parsedAddress a) "ShipFromAddress.CountryCode"
          = some (dgetD a "country" (PVal.str "US"))
      ∧ (hasKey a "country" = false →
          dgetD a "country" (PVal.str "US") = PVal.str "US")) := by
  refine ⟨?_, ?_, ?_⟩
  · rintro ⟨hne, hmiss⟩
    have ht : pvTruthy (PVal.dict a) = true := by
      cases a with
      | nil => exact absurd rfl hne
      | cons x l => rfl
    have hall : ((requiredKeys addressKeyConfig).all (fun k => hasKey a k)) = false := by
      show (["name", "address_1", "city"].all (fun k => hasKey a k)) = false
      cases h1 : hasKey a "name" <;> cases h2 : hasKey a "address_1" <;>
        cases h3 : hasKey a "city" <;> simp_all
    simp [set_ship_from_address, ht, hall]
  · rintro rfl
    simp [set_ship_from_address, pvTruthy]
  · rintro ⟨h1, h2, h3⟩
    have ht : pvTruthy (PVal.dict a) = true := by
      cases a with
      | nil => exact Bool.noConfusion h1
      | cons x l => rfl
    have hall : ((requiredKeys addressKeyConfig).all (fun k => hasKey a k)) = true := by
      show (["name", "address_1", "city"].all (fun k => hasKey a k)) = true
      simp [h1, h2, h3]
    refine ⟨by simp [set_ship_from_address, ht, hall], by rw [parsedAddress]; rfl,
      fun h => dgetD_of_hasKey_false (PVal.str "US") h⟩

theorem c7_address_setter_witness :
    set_ship_from_address Option.none
        (PVal.dict [("name", PVal.str "N"), ("address_1", PVal.str "A1"),
          ("city", PVal.str "C")]) =
      ⟨some (parsedAddress [("name", PVal.str "N"), ("address_1", PVal.str "A1"),
        ("city", PVal.str "C")]), Except.ok ()⟩ :=
  ((c7_address_setter Option.none
    [("name", PVal.str "N"), ("address_1", PVal.str "A1"), ("city", PVal.str "C")]).2.2
    ⟨rfl, rfl, rfl⟩).1

/-- C9 counterexample: `GetReportScheduleList` is declared in the Reports
class's `NEXT_TOKEN_OPERATIONS` but its method carries no `next_token_action`
decorator, while `get_report_list` is wrapped with action `GetReportList`,
which is not declared — so the wrapped set does not coincide with the declared
set. -/
theorem c9_counterexample :
    ("GetReportScheduleList" ∈ Reports_NEXT_TOKEN_OPERATIONS ∧
      "GetReportScheduleList" ∉ Reports_wrapped_token_actions)
    ∧ ("GetReportList" ∈ Reports_wrapped_token_actions ∧
      "GetReportList" ∉ Reports_NEXT_TOKEN_OPERATIONS) := by
  decide

/-- C9 (amended): in the Reports class the methods wrapped with the
token-pagination behavior are precisely `get_report_list` (action
`GetReportList`) and `get_report_request_list` (action
`GetReportRequestList`); this wrapped set does not coincide with the declared
`NEXT_TOKEN_OPERATIONS = [GetReportRequestList, GetReportScheduleList]`:
`GetReportList` is wrapped but not declared, and `GetReportScheduleList` is
declared but its method always issues the plain request. -/
theorem c9_wrapped_vs_declared (tok : String) (htok : tok ≠ "")
    (requestids types : List String)
    (max_count acknowledged fromdate todate : PVal)
    (requestids2 types2 processingstatuses2 : List String)
    (max_count2 fromdate2 todate2 : PVal) (types3 : List String) :
    get_report_list requestids max_count types acknowledged fromdate todate
        (some tok) =
      [("Action", PVal.str "GetReportListByNextToken"),
       ("NextToken", PVal.str tok)]
    ∧ get_report_request_list requestids2 types2 processingstatuses2 max_count2
        fromdate2 todate2 (some tok) =
      [("Action", PVal.str "GetReportRequestListByNextToken"),
       ("NextToken", PVal.str tok)]
    ∧ dlookup (get_report_schedule_list types3) "Action"
        = some (PVal.str "GetReportScheduleList")
    ∧ Reports_wrapped_token_actions ≠ Reports_NEXT_TOKEN_OPERATIONS
    ∧ ("GetReportList" ∈ Reports_wrapped_token_actions ∧
       "GetReportList" ∉ Reports_NEXT_TOKEN_OPERATIONS)
    ∧ ("GetReportScheduleList" ∈ Reports_NEXT_TOKEN_OPERATIONS ∧
       "GetReportScheduleList" ∉ Reports_wrapped_token_actions) := by
  have hbeq : (tok == "") = false := by simpa using htok
  refine ⟨?_, ?_, ?_, by decide, by decide, by decide⟩
  · simp [get_report_list, next_token_action, hbeq]
  · simp [get_report_request_list, next_token_action, hbeq]
  · unfold get_report_schedule_list
    rw [dlookup_dupdate_of_ne]
    · rfl
    · intro kv hkv
      obtain ⟨i, hk⟩ := mem_enumerate_param_key _ _ kv hkv
      rw [hk]
      exact memberKey_ne_of_prefix_char 0 'R' 'A' (by decide) (by decide)
        (by decide) (toString i)

theorem c9_wrapped_vs_declared_witness :
    get_report_list [] PVal.none [] PVal.none PVal.none PVal.none (some "t") =
      [("Action", PVal.str "GetReportListByNextToken"),
       ("NextToken", PVal.str "t")] :=
  (c9_wrapped_vs_declared "t" (by decide) [] [] PVal.none PVal.none PVal.none
    PVal.none [] [] [] PVal.none PVal.none PVal.none []).1

/-- C6: for every non-empty list of item dicts each carrying the required
`sku` and `quantity` keys, the item parser succeeds with one output mapping
per input item in the same order (the output is the elementwise image of the
input), and every output mapping carries the operation's quantity value under
`Quantity` for the plan-creation schema and `QuantityShipped` for the other
schemas. -/
theorem c6_parser_shape (op : String) (items : List PVal) (hne : items ≠ [])
    (hvalid : ∀ v ∈ items, validItem v = true) :
    parse_item_args items op =
      Except.ok (items.map (fun v => itemOutput op (asDict v)))
    ∧ (items.map (fun v => itemOutput op (asDict v))).length = items.length
    ∧ ∀ v ∈ items, dlookup (itemOutput op (asDict v)) (quantityKey op)
        = some (strOrNone (dget (asDict v) "quantity")) := by
  refine ⟨parse_item_args_ok op hne hvalid, List.length_map _ _, ?_⟩
  intro v hv
  by_cases hop : (op == "CreateInboundShipmentPlan") = true
  · have hope : op = "CreateInboundShipmentPlan" := eq_of_beq hop
    subst hope
    rw [itemOutput_plan]
    rfl
  · have hopf : (op == "CreateInboundShipmentPlan") = false := by
      simpa using hop
    rw [itemOutput_nonplan op hopf]
    unfold quantityKey
    rw [hopf]
    rfl

theorem c6_parser_shape_witness :
    parse_item_args [PVal.dict [("sku", PVal.str "A"), ("quantity", PVal.int 3)]]
        "CreateInboundShipment" =
      Except.ok ([PVal.dict [("sku", PVal.str "A"), ("quantity", PVal.int 3)]].map
        (fun v => itemOutput "CreateInboundShipment" (asDict v))) :=
  (c6_parser_shape "CreateInboundShipment"
    [PVal.dict [("sku", PVal.str "A"), ("quantity", PVal.int 3)]]
    (List.cons_ne_nil _ _)
    (by
      intro v hv
      rw [List.mem_singleton] at hv
      subst hv
      rfl)).1

/-- C4: constructing an `InboundShipments` client with a valid `from_address`
kwarg leaves the stored state equal to `None` (the constructor assigns the
setter's `None` return value), so subsequent plan/create/update calls on that
state fail with the address-not-set error. -/
theorem c4_init_assigns_none (a : Dict)
    (hreq : hasKey a "name" = true ∧ hasKey a "address_1" = true ∧
      hasKey a "city" = true)
    (items : List PVal) (hne : items ≠ [])
    (hvalid : ∀ v ∈ items, validItem v = true)
    (sid sname dest ss lp : String) (cr : Bool) (bcs : PVal)
    (cc sc lp2 : String) :
    init_from_address (some (PVal.dict a)) = Except.ok Option.none
    ∧ create_inbound_shipment Option.none (PVal.str sid) (PVal.str sname)
        (PVal.str dest) items ss lp cr bcs
        = Except.error (PyErr.mwsError addrNotSetMsg)
    ∧ update_inbound_shipment Option.none (PVal.str sid) (PVal.str sname)
        (PVal.str dest) items ss lp cr bcs
        = Except.error (PyErr.mwsError addrNotSetMsg)
    ∧ create_inbound_shipment_plan Option.none items cc sc lp2
        = Except.error (PyErr.mwsError addrNotSetMsg) := by
  have hE : items.isEmpty = false := by
    cases items with
    | nil => exact absurd rfl hne
    | cons v vs => rfl
  have ht : pvTruthy (PVal.dict a) = true := by
    cases a with
    | nil => exact Bool.noConfusion hreq.1
    | cons x l => rfl
  have hall : ((requiredKeys addressKeyConfig).all (fun k => hasKey a k)) = true := by
    show (["name", "address_1", "city"].all (fun k => hasKey a k)) = true
    simp [hreq.1, hreq.2.1, hreq.2.2]
  refine ⟨?_, ?_, ?_, ?_⟩
  · simp [init_from_address, set_ship_from_address, ht, hall]
  · unfold create_inbound_shipment
    rw [parse_item_args_ok _ hne hvalid]
    simp [isStr, hE, fromAddressSet]
  · unfold update_inbound_shipment
    rw [parse_item_args_ok _ hne hvalid]
    have hmapE :
        (items.map (fun v => itemOutput "UpdateInboundShipment" (asDict v))).isEmpty
          = false := by
      cases items with
      | nil => exact absurd rfl hne
      | cons v vs => rfl
    simp [isStr, hE, hmapE, fromAddressSet]
  · unfold create_inbound_shipment_plan
    rw [parse_item_args_ok _ hne hvalid]
    simp [hE, fromAddressSet]

theorem c4_init_assigns_none_witness :
    init_from_address (some (PVal.dict [("name", PVal.str "N"),
        ("address_1", PVal.str "A1"), ("city", PVal.str "C")]))
      = Except.ok Option.none :=
  (c4_init_assigns_none
    [("name", PVal.str "N"), ("address_1", PVal.str "A1"), ("city", PVal.str "C")]
    ⟨rfl, rfl, rfl⟩
    [PVal.dict [("sku", PVal.str "A"), ("quantity", PVal.int 3)]]
    (List.cons_ne_nil _ _)
    (by
      intro v hv
      rw [List.mem_singleton] at hv
      subst hv
      rfl)
    "i" "n" "d" "" "" false PVal.none "US" "" "").1

/-- C2: for every shipment_status outside {WORKING, SHIPPED, CANCELLED} (and
every valid items list and set from-address), `create_inbound_shipment`
builds a request whose `InboundShipmentHeader.ShipmentStatus` equals
`WORKING`, while `update_inbound_shipment` with the same invalid status
builds a request in which the status field is absent from the sent
parameters, not defaulted. -/
theorem c2_status_default_vs_drop (a : Dict) (sid sname dest lp : String)
    (cr : Bool) (bcs : PVal) (items : List PVal) (hne : items ≠ [])
    (hvalid : ∀ v ∈ items, validItem v = true) (ss : String)
    (hss : SHIPMENT_STATUSES.contains ss = false) :
    (∃ data, create_inbound_shipment (some (parsedAddress a)) (PVal.str sid)
        (PVal.str sname) (PVal.str dest) items ss lp cr bcs = Except.ok data
      ∧ dlookup data "InboundShipmentHeader.ShipmentStatus"
          = some (PVal.str "WORKING"))
    ∧ (∃ data, update_inbound_shipment (some (parsedAddress a)) (PVal.str sid)
        (PVal.str sname) (PVal.str dest) items ss lp cr bcs = Except.ok data
      ∧ hasKey (sentParams data) "InboundShipmentHeader.ShipmentStatus" = false) := by
  have hss2 : ss ∉ SHIPMENT_STATUSES := by simpa using hss
  have haddr : ∀ kv ∈ headerFromAddress (parsedAddress a),
      kv.1 ≠ "InboundShipmentHeader.ShipmentStatus" := by
    intro kv hkv
    obtain ⟨kw, hkw, hkwe⟩ := List.mem_map.mp hkv
    obtain ⟨c, hc, hce⟩ := List.mem_map.mp hkw
    rw [← hkwe]
    show ("InboundShipmentHeader." ++ kw.1) ≠ "InboundShipmentHeader.ShipmentStatus"
    have hK : "InboundShipmentHeader.ShipmentStatus"
        = "InboundShipmentHeader." ++ "ShipmentStatus" := rfl
    rw [hK]
    intro heq
    have h2 := strAppend_left_cancel heq
    rw [← hce] at h2
    exact shipFromAddress_ne_shipmentStatus c.outputKey h2
  constructor
  · refine ⟨_, create_inbound_shipment_ok a sid sname dest ss lp cr bcs hne hvalid, ?_⟩
    have he2 : ∀ kv ∈ enumerate_keyed_param "InboundShipmentItems.member"
        (items.map (fun v => itemOutput "CreateInboundShipment" (asDict v))),
        kv.1 ≠ "InboundShipmentHeader.ShipmentStatus" := by
      intro kv hkv
      obtain ⟨i, f, hk⟩ := mem_enumerate_keyed_param_key _ _ kv hkv
      rw [hk]
      exact itemsMemberKey_ne i f _ (by decide)
    rw [dlookup_dupdate_of_ne he2, dlookup_dupdate_of_ne haddr]
    simp [dlookup_cons, hss2, DEFAULT_SHIP_STATUS]
  · refine ⟨_, update_inbound_shipment_ok a sid sname dest ss lp cr bcs hne hvalid, ?_⟩
    apply hasKey_sentParams_false
    intro v hv
    rcases mem_dupdate hv with h1 | h1
    · rcases mem_dupdate h1 with h2 | h2
      · simp [Prod.ext_iff, hss2] at h2
        exact h2
      · exfalso
        exact haddr _ h2 rfl
    · exfalso
      obtain ⟨i, f, hk⟩ := mem_enumerate_keyed_param_key _ _ _ h1
      exact itemsMemberKey_ne i f "InboundShipmentHeader.ShipmentStatus"
        (by decide) hk.symm

theorem c2_status_default_vs_drop_witness :
    ∃ data, create_inbound_shipment (some (parsedAddress [("name", PVal.str "N"),
        ("address_1", PVal.str "A1"), ("city", PVal.str "C")])) (PVal.str "i")
        (PVal.str "n") (PVal.str "d")
        [PVal.dict [("sku", PVal.str "A"), ("quantity", PVal.int 3)]]
        "BOGUS" "" false PVal.none = Except.ok data
      ∧ dlookup data "InboundShipmentHeader.ShipmentStatus"
          = some (PVal.str "WORKING") :=
  (c2_status_default_vs_drop
    [("name", PVal.str "N"), ("address_1", PVal.str "A1"), ("city", PVal.str "C")]
    "i" "n" "d" "" false PVal.none
    [PVal.dict [("sku", PVal.str "A"), ("quantity", PVal.int 3)]]
    (List.cons_ne_nil _ _)
    (by
      intro v hv
      rw [List.mem_singleton] at hv
      subst hv
      rfl)
    "BOGUS" rfl).1

/-- C8: with valid identifiers and a set from-address,
`update_inbound_shipment` called with no items builds a request containing no
key that starts with `InboundShipmentItems.`; called with a valid non-empty
item list it builds a request containing the enumerated
`InboundShipmentItems.member.<n>.<Field>` entries, the item at input position
`i` under index `i + 1` (indices start at 1, in input order). -/
theorem c8_update_items_block (a : Dict) (sid sname dest ss lp : String)
    (cr : Bool) (bcs : PVal) (items : List PVal)
    (hvalid : ∀ v ∈ items, validItem v = true) :
    (∃ data, update_inbound_shipment (some (parsedAddress a)) (PVal.str sid)
        (PVal.str sname) (PVal.str dest) [] ss lp cr bcs = Except.ok data
      ∧ ∀ kv ∈ data, ∀ s : String, kv.1 ≠ "InboundShipmentItems." ++ s)
    ∧ (items ≠ [] →
      ∃ data, update_inbound_shipment (some (parsedAddress a)) (PVal.str sid)
        (PVal.str sname) (PVal.str dest) items ss lp cr bcs = Except.ok data
      ∧ ∀ i : Nat, ∀ hi : i < items.length,
          (memberKey "InboundShipmentItems.member" (i + 1) "SellerSKU",
            dget (asDict (items.get ⟨i, hi⟩)) "sku") ∈ data
          ∧ (memberKey "InboundShipmentItems.member" (i + 1) "QuantityShipped",
            strOrNone (dget (asDict (items.get ⟨i, hi⟩)) "quantity")) ∈ data
          ∧ (memberKey "InboundShipmentItems.member" (i + 1) "QuantityInCase",
            strOrNone (dget (asDict (items.get ⟨i, hi⟩)) "quantity_in_case")) ∈ data) := by
  constructor
  · refine ⟨_, update_inbound_shipment_ok_noitems a sid sname dest ss lp cr bcs, ?_⟩
    intro kv hkv s
    rcases mem_dupdate hkv with h | h
    · simp only [List.mem_cons, List.not_mem_nil, or_false] at h
      rcases h with rfl | rfl | rfl | rfl | rfl | rfl | rfl | rfl <;>
        first
          | exact ne_itemsPrefix "Action" (by decide) s
          | exact ne_itemsPrefix "ShipmentId" (by decide) s
          | exact ne_itemsPrefix "InboundShipmentHeader.ShipmentName" (by decide) s
          | exact ne_itemsPrefix
              "InboundShipmentHeader.DestinationFulfillmentCenterId" (by decide) s
          | exact ne_itemsPrefix
              "InboundShipmentHeader.LabelPrepPreference" (by decide) s
          | exact ne_itemsPrefix
              "InboundShipmentHeader.AreCasesRequired" (by decide) s
          | exact ne_itemsPrefix
              "InboundShipmentHeader.ShipmentStatus" (by decide) s
          | exact ne_itemsPrefix
              "InboundShipmentHeader.IntendedBoxContentsSource" (by decide) s
    · obtain ⟨kw, hkw, hkwe⟩ := List.mem_map.mp h
      rw [← hkwe]
      exact headerPrefix_ne_itemsPrefix kw.1 s
  · intro hne
    refine ⟨_, update_inbound_shipment_ok a sid sname dest ss lp cr bcs hne hvalid, ?_⟩
    intro i hi
    have hi2 : i < (items.map
        (fun v => itemOutput "UpdateInboundShipment" (asDict v))).length := by
      simpa using hi
    have hf : ∀ d ∈ items.map (fun v => itemOutput "UpdateInboundShipment" (asDict v)),
        dkeys d = fields3 := by
      intro d hd
      obtain ⟨v, hvm, hve⟩ := List.mem_map.mp hd
      rw [← hve]
      exact dkeys_itemOutput_nonplan _ (by decide) _
    have hflat := enumerate_keyed_param_eq_flatten "InboundShipmentItems.member"
      (items.map (fun v => itemOutput "UpdateInboundShipment" (asDict v))) hf
    have hnd := keysNodup_enumerate_keyed_param "InboundShipmentItems.member"
      (items.map (fun v => itemOutput "UpdateInboundShipment" (asDict v)))
    have hpi : (items.map (fun v => itemOutput "UpdateInboundShipment" (asDict v))).get
        ⟨i, hi2⟩ = itemOutput "UpdateInboundShipment" (asDict (items.get ⟨i, hi⟩)) := by
      simp [List.get_eq_getElem, List.getElem_map]
    have hmem : ∀ kv ∈ memberBlock "InboundShipmentItems.member" (i + 1)
        (itemOutput "UpdateInboundShipment" (asDict (items.get ⟨i, hi⟩))),
        kv ∈ dupdate (dupdate
          [("Action", PVal.str "UpdateInboundShipment"),
           ("ShipmentId", PVal.str sid),
           ("InboundShipmentHeader.ShipmentName", PVal.str sname),
           ("InboundShipmentHeader.DestinationFulfillmentCenterId", PVal.str dest),
           ("InboundShipmentHeader.LabelPrepPreference",
              if LABEL_PREFERENCES.contains lp then PVal.str lp else PVal.none),
           ("InboundShipmentHeader.AreCasesRequired",
              PVal.str (if cr then "true" else "false")),
           ("InboundShipmentHeader.ShipmentStatus",
              if SHIPMENT_STATUSES.contains ss then PVal.str ss else PVal.none),
           ("InboundShipmentHeader.IntendedBoxContentsSource", bcs)]
          (headerFromAddress (parsedAddress a)))
          (enumerate_keyed_param "InboundShipmentItems.member"
            (items.map (fun v => itemOutput "UpdateInboundShipment" (asDict v)))) := by
      intro kv hkv
      apply mem_dupdate_of_mem_right hnd
      rw [hflat]
      apply block_mem_flattenBlocks "InboundShipmentItems.member" _ 0 i hi2 kv
      rw [hpi]
      have h01 : 0 + i + 1 = i + 1 := by omega
      rw [h01]
      exact hkv
    have hblock : memberBlock "InboundShipmentItems.member" (i + 1)
        (itemOutput "UpdateInboundShipment" (asDict (items.get ⟨i, hi⟩))) =
      [(memberKey "InboundShipmentItems.member" (i + 1) "SellerSKU",
          dget (asDict (items.get ⟨i, hi⟩)) "sku"),
       (memberKey "InboundShipmentItems.member" (i + 1) "QuantityShipped",
          strOrNone (dget (asDict (items.get ⟨i, hi⟩)) "quantity")),
       (memberKey "InboundShipmentItems.member" (i + 1) "QuantityInCase",
          strOrNone (dget (asDict (items.get ⟨i, hi⟩)) "quantity_in_case"))] := by
      rw [itemOutput_nonplan _ (by decide)]
      rfl
    refine ⟨hmem _ ?_, hmem _ ?_, hmem _ ?_⟩ <;> rw [hblock]
    · exact List.mem_cons_self _ _
    · exact List.mem_cons_of_mem _ (List.mem_cons_self _ _)
    · exact List.mem_cons_of_mem _ (List.mem_cons_of_mem _ (List.mem_cons_self _ _))


theorem c8_update_items_block_witness :
    ∃ data, update_inbound_shipment (some (parsedAddress [("name", PVal.str "N"),
        ("address_1", PVal.str "A1"), ("city", PVal.str "C")])) (PVal.str "i")
        (PVal.str "n") (PVal.str "d")
        [PVal.dict [("sku", PVal.str "A"), ("quantity", PVal.int 3)]]
        "" "" false PVal.none = Except.ok data
      ∧ ∀ i : Nat, ∀ hi : i <
          [PVal.dict [("sku", PVal.str "A"), ("quantity", PVal.int 3)]].length,
          (memberKey "InboundShipmentItems.member" (i + 1) "SellerSKU",
            dget (asDict ([PVal.dict [("sku", PVal.str "A"),
              ("quantity", PVal.int 3)]].get ⟨i, hi⟩)) "sku") ∈ data
          ∧ (memberKey "InboundShipmentItems.member" (i + 1) "QuantityShipped",
            strOrNone (dget (asDict ([PVal.dict [("sku", PVal.str "A"),
              ("quantity", PVal.int 3)]].get ⟨i, hi⟩)) "quantity")) ∈ data
          ∧ (memberKey "InboundShipmentItems.member" (i + 1) "QuantityInCase",
            strOrNone (dget (asDict ([PVal.dict [("sku", PVal.str "A"),
              ("quantity", PVal.int 3)]].get ⟨i, hi⟩)) "quantity_in_case")) ∈ data :=
  (c8_update_items_block
    [("name", PVal.str "N"), ("address_1", PVal.str "A1"), ("city", PVal.str "C")]
    "i" "n" "d" "" "" false PVal.none
    [PVal.dict [("sku", PVal.str "A"), ("quantity", PVal.int 3)]]
    (by
      intro v hv
      rw [List.mem_singleton] at hv
      subst hv
      rfl)).2 (List.cons_ne_nil _ _)

end MWSSpec
